import Mathlib

/-!
Shallow embedding of the RPC aggregation / metrics-derivation layer of the
Monad dashboard repository (the TypeScript service module `api.ts` and the two
panel components that merge its results into cached UI state), together with
proofs of the spec's testable properties about it.

Conventions used throughout the embedding:

* JavaScript `number` results that can be `NaN` are modelled as `Option Int`
  (`none` = `NaN`); exact integer arithmetic stands in for IEEE doubles, and
  exact rationals stand in for floating-point ratios (the values reached by the
  claims are far below 2^53, where doubles are exact).
* A JavaScript function that can throw is modelled with `Except` or `Option`
  (`Except.error` / `none` = thrown exception), as stated at each definition.
* `undefined`/`null` arguments and fields are modelled with `Option`.
* Network fetches are modelled as oracle parameters: the pure computation the
  source performs on the fetched data is embedded literally, and a fetch is a
  function argument producing the provider's answer.
-/

namespace MonadDash

/-! ## JavaScript string-to-number primitives -/

/-- A JavaScript `number` that may be `NaN`: `none` models `NaN`. -/
abbrev JsNum := Option Int

/-- JavaScript string-trimming whitespace (the ASCII members of the ECMAScript
`WhiteSpace`/`LineTerminator` sets; the exotic Unicode members never occur in
RPC data). -/
def jsWhitespace (c : Char) : Bool :=
  c = ' ' ∨ c = '\t' ∨ c = '\n' ∨ c = '\r' ∨ c = '\x0b' ∨ c = '\x0c'

/-- Strip leading and trailing whitespace, as `parseInt` and `BigInt` do before
parsing. -/
def trimChars (cs : List Char) : List Char :=
  ((cs.dropWhile jsWhitespace).reverse.dropWhile jsWhitespace).reverse

/-- Value of one hexadecimal digit character, as accepted by `parseInt(_, 16)`. -/
def hexDigitVal (c : Char) : Option Nat :=
  if '0' ≤ c ∧ c ≤ '9' then some (c.toNat - '0'.toNat)
  else if 'a' ≤ c ∧ c ≤ 'f' then some (c.toNat - 'a'.toNat + 10)
  else if 'A' ≤ c ∧ c ≤ 'F' then some (c.toNat - 'A'.toNat + 10)
  else none

/-- Value of one decimal digit character. -/
def decDigitVal (c : Char) : Option Nat :=
  if '0' ≤ c ∧ c ≤ '9' then some (c.toNat - '0'.toNat) else none

/-- Accumulate the longest prefix of digits (`parseInt` semantics: stop at the
first non-digit). -/
def digitsPrefixVal (dv : Char → Option Nat) (base : Nat) : List Char → Nat → Nat
  | [], acc => acc
  | c :: cs, acc =>
    match dv c with
    | some d => digitsPrefixVal dv base cs (base * acc + d)
    | none => acc

/-- Parse the longest nonempty prefix of digits; `none` when no leading digit
exists (which makes `parseInt` return `NaN`). -/
def parsePrefix (dv : Char → Option Nat) (base : Nat) : List Char → Option Nat
  | [] => none
  | c :: cs =>
    match dv c with
    | some d => some (digitsPrefixVal dv base cs d)
    | none => none

/-- Fold an entire character list as digits; `none` at the first non-digit. -/
def parseAllDigitsAux (dv : Char → Option Nat) (base : Nat) : List Char → Nat → Option Nat
  | [], acc => some acc
  | c :: cs, acc =>
    match dv c with
    | some d => parseAllDigitsAux dv base cs (base * acc + d)
    | none => none

/-- Parse all remaining characters as digits; `none` unless the list is a
nonempty run of digits (`BigInt(string)` semantics: any trailing garbage is a
`SyntaxError`). -/
def parseAllDigits (dv : Char → Option Nat) (base : Nat) (cs : List Char) : Option Nat :=
  match cs with
  | [] => none
  | _ => parseAllDigitsAux dv base cs 0

/-- Drop a leading `0x` / `0X` radix prefix if present. -/
def stripHexPrefix : List Char → List Char
  | '0' :: 'x' :: rest => rest
  | '0' :: 'X' :: rest => rest
  | cs => cs

/-- `parseInt(s, 16)` on an already-trimmed character list: optional sign,
optional `0x` prefix, then the longest prefix of hex digits; `none` is `NaN`. -/
def parseInt16Chars (cs : List Char) : JsNum :=
  match cs with
  | '-' :: rest => (parsePrefix hexDigitVal 16 (stripHexPrefix rest)).map (fun n => -(n : Int))
  | '+' :: rest => (parsePrefix hexDigitVal 16 (stripHexPrefix rest)).map (fun n => (n : Int))
  | _ => (parsePrefix hexDigitVal 16 (stripHexPrefix cs)).map (fun n => (n : Int))

/-- Models the ECMAScript call `parseInt(s, 16)`; `none` is `NaN`. -/
def parseInt16 (s : String) : JsNum :=
  parseInt16Chars (trimChars s.toList)

/-- `parseInt(s)` with no radix argument (used on `block.gasUsed`): a `0x`
prefix selects base 16, otherwise base 10. -/
def parseIntAutoChars (cs : List Char) : JsNum :=
  match cs with
  | '-' :: '0' :: 'x' :: rest => (parsePrefix hexDigitVal 16 rest).map (fun n => -(n : Int))
  | '-' :: '0' :: 'X' :: rest => (parsePrefix hexDigitVal 16 rest).map (fun n => -(n : Int))
  | '-' :: rest => (parsePrefix decDigitVal 10 rest).map (fun n => -(n : Int))
  | '+' :: '0' :: 'x' :: rest => (parsePrefix hexDigitVal 16 rest).map (fun n => (n : Int))
  | '+' :: '0' :: 'X' :: rest => (parsePrefix hexDigitVal 16 rest).map (fun n => (n : Int))
  | '+' :: rest => (parsePrefix decDigitVal 10 rest).map (fun n => (n : Int))
  | '0' :: 'x' :: rest => (parsePrefix hexDigitVal 16 rest).map (fun n => (n : Int))
  | '0' :: 'X' :: rest => (parsePrefix hexDigitVal 16 rest).map (fun n => (n : Int))
  | _ => (parsePrefix decDigitVal 10 cs).map (fun n => (n : Int))

/-- Models the ECMAScript call `parseInt(s)` (no radix); `none` is `NaN`. -/
def parseIntAuto (s : String) : JsNum :=
  parseIntAutoChars (trimChars s.toList)

/-- ECMAScript `BigInt(string)` on an already-trimmed character list: empty
string is `0`, a `0x`/`0o`/`0b` literal must consist entirely of digits of its
base, otherwise an optional sign followed entirely by decimal digits; every
other string throws a `SyntaxError`, modelled by `none`. -/
def jsStringToBigIntChars (cs : List Char) : Option Int :=
  match cs with
  | [] => some 0
  | '0' :: 'x' :: rest => (parseAllDigits hexDigitVal 16 rest).map (fun n => (n : Int))
  | '0' :: 'X' :: rest => (parseAllDigits hexDigitVal 16 rest).map (fun n => (n : Int))
  | '0' :: 'o' :: rest =>
    (parseAllDigits (fun c => if '0' ≤ c ∧ c ≤ '7' then some (c.toNat - '0'.toNat) else none)
      8 rest).map (fun n => (n : Int))
  | '0' :: 'O' :: rest =>
    (parseAllDigits (fun c => if '0' ≤ c ∧ c ≤ '7' then some (c.toNat - '0'.toNat) else none)
      8 rest).map (fun n => (n : Int))
  | '0' :: 'b' :: rest =>
    (parseAllDigits (fun c => if '0' ≤ c ∧ c ≤ '1' then some (c.toNat - '0'.toNat) else none)
      2 rest).map (fun n => (n : Int))
  | '0' :: 'B' :: rest =>
    (parseAllDigits (fun c => if '0' ≤ c ∧ c ≤ '1' then some (c.toNat - '0'.toNat) else none)
      2 rest).map (fun n => (n : Int))
  | '-' :: rest => (parseAllDigits decDigitVal 10 rest).map (fun n => -(n : Int))
  | '+' :: rest => (parseAllDigits decDigitVal 10 rest).map (fun n => (n : Int))
  | _ => (parseAllDigits decDigitVal 10 cs).map (fun n => (n : Int))

/-- Models the ECMAScript conversion `BigInt(s)`; `none` models a thrown
`SyntaxError`. -/
def jsStringToBigInt (s : String) : Option Int :=
  jsStringToBigIntChars (trimChars s.toList)

/-- Source line 71: `const hexToNumber = (hex) => hex ? parseInt(hex, 16) : 0;`.
The argument is `none` for `undefined`; the empty string is the only falsy
string. The result is a `JsNum` (`none` = `NaN`); this function never throws. -/
def hexToNumber : Option String → JsNum
  | none => some 0
  | some s => if s = "" then some 0 else parseInt16 s

/-- Source line 72: `const hexToBigInt = (hex) => hex ? BigInt(hex) : BigInt(0);`.
The outer `Option` of the result models a thrown `SyntaxError` from the
`BigInt` constructor (`none` = the call throws). -/
def hexToBigInt : Option String → Option Int
  | none => some 0
  | some s => if s = "" then some 0 else jsStringToBigInt s

/-! ## Rate limiter (source lines 6-25 and 89-97)

The module-level mutable pair `requestCount` / `lastResetTime` is made an
explicit state record threaded through the calls; `Date.now()` becomes the
`now` argument of each call. -/

/-- `const RATE_LIMIT = 20;`. -/
def RATE_LIMIT : Nat := 20

/-- `const RATE_LIMIT_WINDOW = 1000;` (milliseconds). -/
def RATE_LIMIT_WINDOW : Int := 1000

/-- The module-level rate-limiter state: `requestCount` and `lastResetTime`. -/
structure RateLimitState where
  requestCount : Nat
  lastResetTime : Int
deriving DecidableEq

/-- Source function `checkRateLimit` (lines 12-25): reset the counter when a
full window has elapsed, then throw if the (possibly reset) counter has reached
`RATE_LIMIT`, else increment it. The thrown error is modelled by
`Except.error waitTime` where `waitTime = RATE_LIMIT_WINDOW - (now - lastResetTime)`
is the retry delay the error message reports (the message renders
`Math.ceil(waitTime / 1000)` seconds). The check happens before any request is
sent, so a throw aborts the call without network activity. -/
def checkRateLimit (now : Int) (s : RateLimitState) : Except Int RateLimitState :=
  let s2 := if now - s.lastResetTime ≥ RATE_LIMIT_WINDOW then ⟨0, now⟩ else s
  if s2.requestCount ≥ RATE_LIMIT then
    .error (RATE_LIMIT_WINDOW - (now - s2.lastResetTime))
  else
    .ok ⟨s2.requestCount + 1, s2.lastResetTime⟩

/-- Models JavaScript `url.includes(pat)` (substring containment). -/
def urlIncludes (url pat : String) : Bool :=
  decide (pat.toList <:+: url.toList)

/-- The gate at the top of `getBlockVisionData` (lines 93-96): the rate check
runs only when the endpoint URL contains `"quiknode"`; all other providers
proceed untouched. -/
def rateLimitGate (url : String) (now : Int) (s : RateLimitState) :
    Except Int RateLimitState :=
  if urlIncludes url "quiknode" then checkRateLimit now s else .ok s

/-- A sequence of consecutive rate-limited calls at the given instants,
threading the module-level state; stops at the first throw. -/
def runCalls : List Int → RateLimitState → Except Int RateLimitState
  | [], s => .ok s
  | t :: ts, s =>
    match checkRateLimit t s with
    | .ok s2 => runCalls ts s2
    | .error e => .error e

/-! ## Batched JSON-RPC calls (source `batchBlockVisionData`, lines 754-794)

Requests are tagged `id := index`; after the HTTP exchange the provider's array
`data` is processed by `data.sort((a, b) => a.id - b.id).map(res => res.error ? null : res.result)`
(lines 782-788).  A JavaScript `sort` with this comparator produces a stable
sort by `id`; `List.insertionSort` is a stable sort and therefore computes the
same list. -/

/-- One element of the provider's batch response array. `result` is `none` when
the sub-response's `result` is `null`/absent; `error` is `some msg` when the
sub-response carries an `error` field. -/
structure RpcResponse (α : Type) where
  id : Nat
  result : Option α
  error : Option String
deriving DecidableEq

/-- `data.sort((a, b) => a.id - b.id)`. -/
def sortById {α : Type} (data : List (RpcResponse α)) : List (RpcResponse α) :=
  data.insertionSort (fun a b => a.id ≤ b.id)

/-- The response post-processing of `batchBlockVisionData` (lines 782-788):
sort the received sub-responses by `id`, then map each one to `null` (`none`)
if it carries an `error` field and to its `result` otherwise. -/
def batchToResults {α : Type} (data : List (RpcResponse α)) : List (Option α) :=
  (sortById data).map (fun r => match r.error with | some _ => none | none => r.result)

/-- The full batch response the provider would send for requests `0..N-1` when
it answers every request in order: request `i` gets result `res i` and error
field `err i`. An out-of-order provider returns some permutation of this. -/
def canonicalResponses {α : Type} (ids : List Nat) (res : Nat → Option α)
    (err : Nat → Option String) : List (RpcResponse α) :=
  ids.map (fun i => ⟨i, res i, err i⟩)

/-! ## Domain records

`Transaction.value` and `Transaction.gas` arrive from the provider as hex
strings and are read through `hexToBigInt` / `hexToNumber` at each use site;
they are modelled here as the already-parsed integers (wei, gas units), with
the parsing itself verified separately on `hexToNumber` / `hexToBigInt`.
`from` is spelled `fromAddr` (`from` is reserved in Lean) and `to` is
`toAddr`. -/

/-- The `Transaction` record of the source (fields used by the aggregators). -/
structure Transaction where
  hash : String
  fromAddr : Option String
  toAddr : Option String
  value : Int
  gas : Int
  status : Option Int
deriving DecidableEq

/-- The `Block` record of the source after `getBlockByNumber` normalisation:
`number` and `timestamp` already converted by `hexToNumber`, `gasUsed` still
the raw provider string, `prefetchedTransactions` present exactly when the
provider returned transaction objects. -/
structure Block where
  number : Int
  timestamp : Int
  gasUsed : String
  prefetchedTransactions : Option (List Transaction)
deriving DecidableEq

/-- JavaScript string truthiness: `undefined`/`null`/`""` are falsy. -/
def truthyStr : Option String → Bool
  | none => false
  | some s => s ≠ ""

/-- `o || d` on a string-valued field (`tx.to || 'Unknown'`). -/
def jsOrStr (o : Option String) (d : String) : String :=
  match o with
  | some s => if s = "" then d else s
  | none => d

/-! ## Fail-closed ecosystem health (`getEcosystemHealthMetrics`, lines 1062-1159)

The block window is fetched one block at a time walking backwards; the metric
fold over the fetched window (lines 1107-1158) is embedded below over the
window as a list. The loop tallies over `block.prefetchedTransactions` of each
block, which equal the concatenation tallies below. -/

/-- The transactions the metric loop iterates over for one block:
`block.prefetchedTransactions` when present (and an array, which the model
guarantees), else nothing. -/
def blockTxs (b : Block) : List Transaction :=
  b.prefetchedTransactions.getD []

/-- All transactions the window loop visits, in visit order. -/
def windowTxs (blocks : List Block) : List Transaction :=
  (blocks.map blockTxs).flatten

/-- `txCount` after the loop. -/
def txCountOf (blocks : List Block) : Nat :=
  (windowTxs blocks).length

/-- `successCount` after the loop (`tx.status === 1`). -/
def successCountOf (blocks : List Block) : Nat :=
  (windowTxs blocks).countP (fun tx => tx.status = some 1)

/-- `failedCount` after the loop (`tx.status === 0`). -/
def failedCountOf (blocks : List Block) : Nat :=
  (windowTxs blocks).countP (fun tx => tx.status = some 0)

/-- JavaScript `Set.add`: append if not yet present. -/
def setAdd (l : List String) (x : String) : List String :=
  if x ∈ l then l else l ++ [x]

/-- The `walletSet` fold of the loop: add truthy `from` and `to` of every
visited transaction. -/
def walletSetOf (blocks : List Block) : List String :=
  (windowTxs blocks).foldl
    (fun l tx =>
      let l2 := if truthyStr tx.fromAddr then setAdd l (jsOrStr tx.fromAddr "") else l
      if truthyStr tx.toAddr then setAdd l2 (jsOrStr tx.toAddr "") else l2)
    []

/-- `contractCount` after the loop (`!tx.to`). -/
def contractCountOf (blocks : List Block) : Nat :=
  (windowTxs blocks).countP (fun tx => !truthyStr tx.toAddr)

/-- `blockTimes`: consecutive timestamp differences, newest block first
(`blocks[i-1].timestamp - blocks[i].timestamp`). -/
def blockTimesOf (blocks : List Block) : List Int :=
  List.zipWith (fun a b => a.timestamp - b.timestamp) blocks blocks.tail

/-- `maxGasUsage` after the loop: running maximum of `parseInt(block.gasUsed)`
starting from `0`; a `NaN` parse never beats the running maximum. -/
def maxGasUsageOf (blocks : List Block) : Int :=
  blocks.foldl
    (fun m b => match parseIntAuto b.gasUsed with
      | some v => if v > m then v else m
      | none => m)
    0

/-- Raw (pre-rounding) `successRate` of the fail-closed variant, line 1138:
`txCount > 0 ? (successCount / txCount) * 100 : 100`. -/
def successRateRaw (blocks : List Block) : ℚ :=
  if txCountOf blocks > 0 then
    ((successCountOf blocks : ℚ) / (txCountOf blocks : ℚ)) * 100
  else 100

/-- Raw `failedTxRate` of the fail-closed variant, line 1139:
`txCount > 0 ? (failedCount / txCount) * 100 : 0`. -/
def failedTxRateRaw (blocks : List Block) : ℚ :=
  if txCountOf blocks > 0 then
    ((failedCountOf blocks : ℚ) / (txCountOf blocks : ℚ)) * 100
  else 0

/-- Line 1145: the composite health score,
`successRate > 95 && failedTxRate < 5 ? 'Healthy' : 'Needs Attention'`,
computed from the raw (unrounded) rates. -/
def healthScoreOf (blocks : List Block) : String :=
  if successRateRaw blocks > 95 ∧ failedTxRateRaw blocks < 5 then "Healthy"
  else "Needs Attention"

/-- `Number(x.toFixed(2))`: round to two decimal places (the rates are
nonnegative, where `toFixed` rounding agrees with `round`). -/
def round2 (q : ℚ) : ℚ :=
  (round (q * 100) : ℤ) / 100

/-- The result record of `getEcosystemHealthMetrics`. -/
structure EcosystemHealthMetrics where
  tps : ℚ
  successRate : ℚ
  activeWallets : Nat
  newContracts : Nat
  failedTxRate : ℚ
  avgBlockTime : ℚ
  maxGasUsagePerBlock : Int
  healthScore : String
  blockCount : Nat
  txCount : Nat
deriving DecidableEq

/-- `const secondsIn24h = 10 * 60;` (line 1080; the "24 hours" window is
hard-coded to 10 minutes). -/
def secondsIn24h : Nat := 600

/-- The metric computation of `getEcosystemHealthMetrics` (lines 1107-1158) as
a function of the fetched block window and of the estimated `avgBlockTime`
fallback computed earlier in the function (used only when fewer than two blocks
are in the window). -/
def getEcosystemHealthMetricsCore (blocks : List Block) (avgBlockTime : ℚ) :
    EcosystemHealthMetrics :=
  let bt := blockTimesOf blocks
  { tps := round2 ((txCountOf blocks : ℚ) / (secondsIn24h : ℚ))
    successRate := round2 (successRateRaw blocks)
    activeWallets := (walletSetOf blocks).length
    newContracts := contractCountOf blocks
    failedTxRate := round2 (failedTxRateRaw blocks)
    avgBlockTime :=
      round2 (if bt.length > 0 then ((bt.sum : ℚ) / (bt.length : ℚ)) else avgBlockTime)
    maxGasUsagePerBlock := maxGasUsageOf blocks
    healthScore := healthScoreOf blocks
    blockCount := blocks.length
    txCount := txCountOf blocks }

/-! ## Fail-open ecosystem health (`getRecentEcosystemHealthMetrics`, lines 1207-1322)

The blocks come back from one batched call with full transaction objects; a
sub-request that failed yields `null` in the batch result. The fetch is the
oracle `fetch : Int → Option RecentBlock` (`none` = that sub-request failed),
and each receipt lookup is the oracle `receiptOf` (`none` = the receipt fetch
threw or returned `null`). -/

/-- One entry of a raw block's `transactions` array: either a hash string or a
full transaction object. -/
abbrev TxItem := String ⊕ Transaction

/-- A raw block as consumed by `getRecentEcosystemHealthMetrics` (timestamps
already as numbers; JavaScript coerces the raw hex strings through arithmetic,
which `hexToNumber` models elsewhere). -/
structure RecentBlock where
  number : Int
  timestamp : Int
  gasUsed : String
  transactions : List TxItem
  prefetchedTransactions : Option (List Transaction)
deriving DecidableEq

/-- A transaction receipt as used for status classification. -/
structure RpcReceipt where
  status : Option String
deriving DecidableEq

/-- Lines 1280-1288: classify one receipt lookup. `some true` = counted as
success, `some false` = counted as fail, `none` = neither (receipt missing,
status undefined, unparseable, or the fetch threw). -/
def classifyReceipt : Option RpcReceipt → Option Bool
  | none => none
  | some r =>
    match r.status with
    | none => none
    | some st =>
      if parseInt16 st = some 1 then some true
      else if parseInt16 st = some 0 then some false
      else none

/-- The hash pushed to `allTxHashes` for one entry of `block.transactions`
(line 1254-1259: a string entry is pushed as is, an object entry contributes
its `hash`). -/
def txItemHash : TxItem → String
  | .inl s => s
  | .inr t => t.hash

/-- `totalTxCount`: the sum of `block.transactions.length` (line 1253). -/
def totalTxCountOf (blocks : List RecentBlock) : Nat :=
  (blocks.map (fun b => b.transactions.length)).sum

/-- `allTxHashes` after the loop. -/
def allTxHashesOf (blocks : List RecentBlock) : List String :=
  (blocks.map (fun b => b.transactions.map txItemHash)).flatten

/-- Lines 1263-1265: the transaction objects used for wallet/contract tallies:
`prefetchedTransactions` when nonempty, else the `transactions` array when its
first entry is an object (strings inside are skipped by the
`typeof tx !== 'object'` continue), else nothing. -/
def recentTxObjs (b : RecentBlock) : List Transaction :=
  let fallback : List Transaction :=
    match b.transactions with
    | .inr _ :: _ => b.transactions.filterMap (fun i => match i with
        | .inr t => some t
        | .inl _ => none)
    | _ => []
  match b.prefetchedTransactions with
  | some l => if l.length > 0 then l else fallback
  | none => fallback

/-- The fail-open wallet set (lowercased addresses, lines 1266-1271). -/
def recentWalletSetOf (blocks : List RecentBlock) : List String :=
  ((blocks.map recentTxObjs).flatten).foldl
    (fun l tx =>
      let l2 := if truthyStr tx.fromAddr then setAdd l (jsOrStr tx.fromAddr "").toLower else l
      if truthyStr tx.toAddr then setAdd l2 (jsOrStr tx.toAddr "").toLower else l2)
    []

/-- The fail-open `contractCount` (`!tx.to`, line 1270). -/
def recentContractCountOf (blocks : List RecentBlock) : Nat :=
  ((blocks.map recentTxObjs).flatten).countP (fun tx => !truthyStr tx.toAddr)

/-- `successCount` over the receipt lookups of all hashes (lines 1275-1294). -/
def recentSuccessCountOf (blocks : List RecentBlock)
    (receiptOf : String → Option RpcReceipt) : Nat :=
  (allTxHashesOf blocks).countP (fun h => classifyReceipt (receiptOf h) = some true)

/-- `failedCount` over the receipt lookups of all hashes. -/
def recentFailedCountOf (blocks : List RecentBlock)
    (receiptOf : String → Option RpcReceipt) : Nat :=
  (allTxHashesOf blocks).countP (fun h => classifyReceipt (receiptOf h) = some false)

/-- Raw fail-open `successRate`, line 1299:
`totalTxCount > 0 ? (successCount / totalTxCount) * 100 : 0` — note the `0`
fallback for an empty window, unlike the fail-closed variant's `100`. -/
def recentSuccessRateRaw (blocks : List RecentBlock)
    (receiptOf : String → Option RpcReceipt) : ℚ :=
  if totalTxCountOf blocks > 0 then
    ((recentSuccessCountOf blocks receiptOf : ℚ) / (totalTxCountOf blocks : ℚ)) * 100
  else 0

/-- Raw fail-open `failedTxRate`, line 1300. -/
def recentFailedTxRateRaw (blocks : List RecentBlock)
    (receiptOf : String → Option RpcReceipt) : ℚ :=
  if totalTxCountOf blocks > 0 then
    ((recentFailedCountOf blocks receiptOf : ℚ) / (totalTxCountOf blocks : ℚ)) * 100
  else 0

/-- Line 1304: the fail-open health score, same rule as the fail-closed one,
applied to the fail-open raw rates. -/
def recentHealthScoreOf (blocks : List RecentBlock)
    (receiptOf : String → Option RpcReceipt) : String :=
  if recentSuccessRateRaw blocks receiptOf > 95 ∧ recentFailedTxRateRaw blocks receiptOf < 5
  then "Healthy" else "Needs Attention"

/-- The fail-open `maxGasUsage` fold (lines 1249-1251). -/
def recentMaxGasUsageOf (blocks : List RecentBlock) : Int :=
  blocks.foldl
    (fun m b => match parseIntAuto b.gasUsed with
      | some v => if v > m then v else m
      | none => m)
    0

/-- `blockTimes` of the fail-open variant (lines 1246-1248). -/
def recentBlockTimesOf (blocks : List RecentBlock) : List Int :=
  List.zipWith (fun a b => a.timestamp - b.timestamp) blocks blocks.tail

/-- The result record of `getRecentEcosystemHealthMetrics`. The source calls
the partial-result flag `partial` (a reserved word here, hence `partialFlag`). -/
structure RecentEcosystemHealthMetrics where
  tps : ℚ
  successRate : ℚ
  activeWallets : Nat
  newContracts : Nat
  failedTxRate : ℚ
  avgBlockTime : ℚ
  maxGasUsagePerBlock : Int
  healthScore : String
  healthScoreCount : Nat
  blockCount : Nat
  totalTxCount : Nat
  successCount : Nat
  failedCount : Nat
  partialFlag : Bool
  failedBlocks : List Int
deriving DecidableEq

/-- The metric record assembled from the surviving block window and the
`failedBlocks` list (lines 1222-1321); `null` (`none`) when no block fetch
succeeded. -/
def recentMetricsRecord (blocksIn : List RecentBlock) (failedBlocks : List Int)
    (receiptOf : String → Option RpcReceipt) : Option RecentEcosystemHealthMetrics :=
  match blocksIn with
  | [] => none
  | b0 :: rest =>
    let blocks := b0 :: rest
    let firstTimestamp := (blocks.getLast (List.cons_ne_nil b0 rest)).timestamp
    let lastTimestamp := b0.timestamp
    let seconds : Int := lastTimestamp - firstTimestamp
    let bt := recentBlockTimesOf blocks
    some
      { tps := round2 (if seconds > 0 then (totalTxCountOf blocks : ℚ) / (seconds : ℚ) else 0)
        successRate := round2 (recentSuccessRateRaw blocks receiptOf)
        activeWallets := (recentWalletSetOf blocks).length
        newContracts := recentContractCountOf blocks
        failedTxRate := round2 (recentFailedTxRateRaw blocks receiptOf)
        avgBlockTime := round2 (if bt.length > 0 then ((bt.sum : ℚ) / (bt.length : ℚ)) else 0)
        maxGasUsagePerBlock := recentMaxGasUsageOf blocks
        healthScore := recentHealthScoreOf blocks receiptOf
        healthScoreCount := 14
        blockCount := blocks.length
        totalTxCount := totalTxCountOf blocks
        successCount := recentSuccessCountOf blocks receiptOf
        failedCount := recentFailedCountOf blocks receiptOf
        partialFlag := failedBlocks.length > 0
        failedBlocks := failedBlocks }

/-- The block numbers requested by `getRecentEcosystemHealthMetrics`
(lines 1211-1214): `latest - i` for `i < blockCount`. -/
def recentBlockNumbers (latestBlockNumber : Int) (blockCount : Nat) : List Int :=
  (List.range blockCount).map (fun i => latestBlockNumber - i)

/-- Line 1220-1221, faithful to the source: the surviving blocks are the batch
results with `null` entries filtered out, and `failedBlocks` is computed by
testing `!blocks[idx]` against that **already filtered** array. -/
def recentSurvivors (latestBlockNumber : Int) (blockCount : Nat)
    (fetch : Int → Option RecentBlock) : List RecentBlock × List Int :=
  let blockNumbers := recentBlockNumbers latestBlockNumber blockCount
  let results := blockNumbers.map fetch
  let blocks := results.filterMap id
  let failedBlocks := ((blockNumbers.enum).filter (fun p => blocks[p.fst]?.isNone)).map (·.snd)
  (blocks, failedBlocks)

/-- `getRecentEcosystemHealthMetrics(blockCount)` (lines 1207-1322) given the
latest block number already fetched; `fetch` models one batched
`eth_getBlockByNumber` sub-request (`none` = the sub-request failed and the
batch layer yielded `null`), `receiptOf` one receipt lookup. -/
def getRecentEcosystemHealthMetricsFull (latestBlockNumber : Int) (blockCount : Nat)
    (fetch : Int → Option RecentBlock) (receiptOf : String → Option RpcReceipt) :
    Option RecentEcosystemHealthMetrics :=
  let sv := recentSurvivors latestBlockNumber blockCount fetch
  recentMetricsRecord sv.fst sv.snd receiptOf

/-! ## Gas usage history (`getGasUsageHistory`, lines 683-752)

The three network interactions (latest block, the block ~100 behind, and the
batch fetch of the estimated range) are oracles; an `Except.error` models a
thrown fetch, which the surrounding `try`/`catch` turns into `[]`. The minute
labels rendered as local-time `HH:MM` strings are presentation only and are
modelled by the minute's anchor timestamp. Ether/float divisions are modelled
exactly over `ℚ`. -/

/-- `Math.floor(blockTimestamp / 60)`: the minute bucket key (line 728). -/
def minuteKey (ts : Int) : Int := Int.fdiv ts 60

/-- Reading `gasUsageMap.get(k) || 0`: an absent key (`none`) and a stored
`NaN` (`some none`) both read as `0`. -/
def jsOrZero : Option JsNum → Int
  | some (some v) => v
  | _ => 0

/-- One step of the `blocks.forEach` fold building `gasUsageMap`
(lines 725-731): skip blocks with falsy `timestamp` or `gasUsed`, otherwise add
`parseInt(block.gasUsed, 16)` into the block's minute bucket (a `NaN` parse
stores `NaN`). The map is modelled as a function from keys to stored values. -/
def addBlockGas (m : Int → Option JsNum) (b : Block) : Int → Option JsNum :=
  if b.timestamp = 0 ∨ b.gasUsed = "" then m
  else
    let k := minuteKey b.timestamp
    let v : JsNum := (parseInt16 b.gasUsed).map (fun g => jsOrZero (m k) + g)
    fun k2 => if k2 = k then some v else m k2

/-- `gasUsageMap` after the fold over all fetched blocks. -/
def buildGasMap (blocks : List Block) : Int → Option JsNum :=
  blocks.foldl addBlockGas (fun _ => none)

/-- Lines 734-746: synthesize one row per requested minute walking backwards
from the latest block's timestamp, then reverse into chronological order. Each
row is `(minute anchor timestamp, gasUsed)`. -/
def gasHistoryRows (nowTimestamp : Int) (m : Int → Option JsNum) (minutes : Nat) :
    List (Int × Int) :=
  ((List.range minutes).map
    (fun (i : Nat) =>
      let minuteTimestamp := nowTimestamp - (i : Int) * 60
      (minuteTimestamp, jsOrZero (m (minuteKey minuteTimestamp))))).reverse

/-- Lines 690-707: the number of blocks to fetch, estimated from the block
~100 behind (`Math.ceil(blocksPerMinute * minutes)` with
`blocksPerMinute = 60 / avgBlockTime` and `avgBlockTime = timeDiff / blockDiff`),
with the `minutes * 20` fallback. -/
def blocksToFetchCount (latest : Block) (older : Option Block) (minutes : Nat) : Nat :=
  let fallback := minutes * 20
  match older with
  | none => fallback
  | some o =>
    let timeDiff : Int := latest.timestamp - o.timestamp
    let blockDiff : Int := latest.number - o.number
    if 0 < timeDiff ∧ 0 < blockDiff then
      (⌈((60 : ℚ) * (blockDiff : ℚ) / (timeDiff : ℚ)) * (minutes : ℚ)⌉).toNat
    else fallback

/-- Lines 703-707: the block numbers requested from the batch (`latest - i` for
`i < blocksToFetch`, keeping only positive numbers). -/
def requestedBlockNumbers (latest : Block) (older : Option Block)
    (minutes : Nat) : List Int :=
  ((List.range (blocksToFetchCount latest older minutes)).map
    (fun i => latest.number - (i : Int))).filter (fun n => 0 < n)

/-- `getGasUsageHistory(minutes)` (lines 683-752). `latestFetch` models
`getBlockByNumber('latest')` (throw / `null` / block), `olderFetch` models
`getBlockByNumber(latestBlockNumber - 100)`, and `batchFetch` models the
batched fetch of the requested numbers (each `null` entry a failed
sub-request). Any thrown fetch is caught and yields `[]`; a `null` latest
block also yields `[]`. -/
def getGasUsageHistory (minutes : Nat)
    (latestFetch : Except Unit (Option Block))
    (olderFetch : Int → Except Unit (Option Block))
    (batchFetch : List Int → Except Unit (List (Option Block))) : List (Int × Int) :=
  match latestFetch with
  | .error _ => []
  | .ok none => []
  | .ok (some latest) =>
    match olderFetch (latest.number - 100) with
    | .error _ => []
    | .ok olderOpt =>
      let nums := requestedBlockNumbers latest olderOpt minutes
      match batchFetch nums with
      | .error _ => []
      | .ok results =>
        let blocks := results.filterMap id
        gasHistoryRows latest.timestamp (buildGasMap blocks) minutes

/-- The specification-side bucket sum: total `parseInt(_, 16)` gas of the
fetched blocks that pass the falsiness guard and whose timestamp falls in
minute bucket `k`. -/
def bucketSum (blocks : List Block) (k : Int) : Int :=
  ((blocks.filter
    (fun b => decide (¬(b.timestamp = 0 ∨ b.gasUsed = "") ∧ minuteKey b.timestamp = k))).map
      (fun b => (parseInt16 b.gasUsed).getD 0)).sum

/-! ## Event generation (`getRecentEvents` lines 813-905, `getNewEventsSince`
lines 907-999)

Both functions scan the first 3 transactions of each fetched block and emit up
to four synthetic events per transaction, each stamped with
`id: event-N` for a per-invocation counter `N` incremented at every push.
`getRecentEvents` starts the counter at `1`; `getNewEventsSince` seeds it with
`Date.now()` (modelled as the `now` argument). Presentation strings (`details`,
ISO timestamps, `toFixed`/`toLocaleString` number formatting) are modelled by
exact decimal renderings; the `time` field is modelled by the millisecond value
`block.timestamp * 1000` the ISO string encodes (sorting parses it back to
exactly this number). -/

/-- Exact decimal rendering of a natural number, modelling the JavaScript
number-to-string conversion used by template literals. -/
def decimalRepr (n : Nat) : String :=
  if n = 0 then "0" else String.mk (((Nat.digits 10 n).reverse).map Nat.digitChar)

/-- Decimal rendering of an integer. -/
def intToString (i : Int) : String :=
  if i < 0 then "-" ++ decimalRepr i.natAbs else decimalRepr i.natAbs

/-- The event id minted for counter value `n`: the template literal
`event-N`. -/
def eventIdStr (n : Nat) : String :=
  "event-" ++ decimalRepr n

/-- The synthetic `Event` record of the source. -/
structure Event where
  id : String
  type : String
  time : Int
  address : String
  details : String
  status : String
  blockNumber : Option Int
  transactionHash : Option String
  gasUsed : Option String
  value : Option String
deriving DecidableEq

/-- 10^18 wei = 1 unit of native currency (the `> 1` large-transfer
threshold after `formatEth`). -/
def ethWei : Int := 10 ^ 18

/-- The 0-4 events one scanned transaction contributes, with the counter value
`c` at which its first event is minted (the source pushes and increments
`eventId` at each emitted event; list concatenation realises the same
consecutive numbering). The receipt oracle returns `none` when
`getTransactionReceipt` threw (the `catch` skips only the failed-transaction
classification) or returned `null`. -/
def txEvents (c : Nat) (blkNumber : Int) (blkTimestamp : Int) (tx : Transaction)
    (receiptOf : String → Option RpcReceipt) : List Event :=
  let l1 : List Event :=
    if tx.toAddr = none ∨ tx.toAddr = some "0x" then
      [{ id := eventIdStr c, type := "Contract Creation", time := blkTimestamp * 1000,
         address := tx.hash,
         details := "New contract deployed from " ++ (tx.fromAddr.getD ""),
         status := "success", blockNumber := some blkNumber,
         transactionHash := some tx.hash, gasUsed := some (intToString tx.gas),
         value := some (intToString tx.value) }]
    else []
  let c1 := c + l1.length
  let l2 : List Event :=
    match receiptOf tx.hash with
    | none => []
    | some r =>
      if hexToNumber r.status = some 0 then
        [{ id := eventIdStr c1, type := "Failed Transaction", time := blkTimestamp * 1000,
           address := jsOrStr tx.toAddr "Unknown",
           details := "Transaction reverted", status := "error",
           blockNumber := some blkNumber, transactionHash := some tx.hash,
           gasUsed := none, value := none }]
      else []
  let c2 := c1 + l2.length
  let l3 : List Event :=
    if tx.value > ethWei then
      [{ id := eventIdStr c2, type := "Large Transfer", time := blkTimestamp * 1000,
         address := jsOrStr tx.toAddr "Unknown",
         details := "Large transfer", status := "info",
         blockNumber := some blkNumber, transactionHash := some tx.hash,
         gasUsed := none, value := some (intToString tx.value) }]
    else []
  let c3 := c2 + l3.length
  let l4 : List Event :=
    if tx.gas > 500000 then
      [{ id := eventIdStr c3, type := "High Gas Usage", time := blkTimestamp * 1000,
         address := jsOrStr tx.toAddr "Unknown",
         details := "High gas usage", status := "warning",
         blockNumber := some blkNumber, transactionHash := some tx.hash,
         gasUsed := some (intToString tx.gas), value := none }]
    else []
  l1 ++ l2 ++ l3 ++ l4

/-- Scan a block's first transactions in order, threading the event counter. -/
def scanTxs (c : Nat) (blkNumber : Int) (blkTimestamp : Int)
    (receiptOf : String → Option RpcReceipt) : List Transaction → List Event
  | [] => []
  | tx :: rest =>
    let es := txEvents c blkNumber blkTimestamp tx receiptOf
    es ++ scanTxs (c + es.length) blkNumber blkTimestamp receiptOf rest

/-- The events one fetched block contributes (`block?.prefetchedTransactions`
guard, then the first 3 transactions). -/
def blockEvents (c : Nat) (receiptOf : String → Option RpcReceipt) :
    Option Block → List Event
  | none => []
  | some b =>
    match b.prefetchedTransactions with
    | none => []
    | some txs => scanTxs c b.number b.timestamp receiptOf (txs.take 3)

/-- The full scan over the fetched blocks, threading the event counter from its
seed `c`. -/
def scanBlocks (c : Nat) (receiptOf : String → Option RpcReceipt) :
    List (Option Block) → List Event
  | [] => []
  | b :: rest =>
    let es := blockEvents c receiptOf b
    es ++ scanBlocks (c + es.length) receiptOf rest

/-- `events.sort((a, b) => new Date(b.time).getTime() - new Date(a.time).getTime())`:
a stable sort on descending time, realised by `insertionSort` (which is
stable). -/
def sortByTimeDesc (events : List Event) : List Event :=
  events.insertionSort (fun a b => b.time ≤ a.time)

/-- `getRecentEvents` (lines 813-905): counter seeded at 1, result sorted
newest-first and capped at 20. -/
def getRecentEventsCore (blocks : List (Option Block))
    (receiptOf : String → Option RpcReceipt) : List Event :=
  (sortByTimeDesc (scanBlocks 1 receiptOf blocks)).take 20

/-- `getNewEventsSince` (lines 907-999): counter seeded with `Date.now()`
(the `now` argument), result sorted newest-first, no cap. -/
def getNewEventsSinceCore (now : Nat) (blocks : List (Option Block))
    (receiptOf : String → Option RpcReceipt) : List Event :=
  sortByTimeDesc (scanBlocks now receiptOf blocks)

/-! ## Cached-state merges (EventsLog `checkForNewEvents`, GasSection
`fetchOverview`) -/

/-- Keep the first occurrence of each key, scanning left to right with the
set `seen` of already-taken keys — the semantics of
`combined.filter((e, i, self) => i === self.findIndex(x => key x === key e))`
when started with `seen = []`, and of the `if (!txMap.has(k)) txMap.set(k, v)`
append phase when started with the map's current key set. -/
def keepFirstByAux {α : Type} (key : α → String) (seen : List String) :
    List α → List α
  | [] => []
  | e :: rest =>
    if key e ∈ seen then keepFirstByAux key seen rest
    else e :: keepFirstByAux key (key e :: seen) rest

/-- First-occurrence deduplication by key. -/
def keepFirstBy {α : Type} (key : α → String) (l : List α) : List α :=
  keepFirstByAux key [] l

/-- The events state update of `checkForNewEvents` (EventsLog lines 38-56):
when the fetch returned any new events, prepend them, deduplicate by event id
keeping first occurrences, and cap at 20; otherwise the state is untouched. -/
def mergeEvents (newEvents prevEvents : List Event) : List Event :=
  if newEvents.length > 0 then (keepFirstBy Event.id (newEvents ++ prevEvents)).take 20
  else prevEvents

/-- JavaScript `Map.set` on an insertion-ordered association list: update in
place when the key exists (keeping its position), else append. -/
def mapSet {α : Type} (m : List (String × α)) (k : String) (v : α) :
    List (String × α) :=
  if m.any (fun p => p.fst = k) then
    m.map (fun p => if p.fst = k then (k, v) else p)
  else m ++ [(k, v)]

/-- JavaScript `Map.has`. -/
def mapHas {α : Type} (m : List (String × α)) (k : String) : Bool :=
  m.any (fun p => p.fst = k)

/-- The high-gas-transactions state update of `fetchOverview` (GasSection
lines 42-49): `overview.highGasTxs` entries are `set` first (so new data is
most recent and wins duplicate hashes), previously persisted entries are added
only when their hash is absent, and the insertion-ordered values are capped at
12. The `{ ...tx }` spread copies a record, which is the identity here. -/
def mergeHighGasTxs (newTxs prev : List Transaction) : List Transaction :=
  ((prev.foldl (fun m tx => if mapHas m tx.hash then m else m ++ [(tx.hash, tx)])
      (newTxs.foldl (fun m tx => mapSet m tx.hash tx) [])).map (fun p => p.snd)).take 12

/-! ## Supporting lemmas -/

lemma parseAllDigitsAux_isSome (dv : Char → Option Nat) (base : Nat) :
    ∀ (cs : List Char) (acc : Nat), (∀ c ∈ cs, (dv c).isSome) →
      (parseAllDigitsAux dv base cs acc).isSome
  | [], _, _ => by simp [parseAllDigitsAux]
  | c :: cs, acc, h => by
    obtain ⟨d, hd⟩ := Option.isSome_iff_exists.mp (h c (by simp))
    rw [parseAllDigitsAux, hd]
    exact parseAllDigitsAux_isSome dv base cs _ (fun x hx => h x (by simp [hx]))

lemma parseAllDigits_isSome (dv : Char → Option Nat) (base : Nat) (cs : List Char)
    (hne : cs ≠ []) (h : ∀ c ∈ cs, (dv c).isSome) :
    (parseAllDigits dv base cs).isSome := by
  cases cs with
  | nil => exact absurd rfl hne
  | cons c cs => exact parseAllDigitsAux_isSome dv base (c :: cs) 0 h

/-! ## C4 -/

/-- C4 (corrected claim, counterexample): the claim states that `hexToBigInt`
returns a value without throwing for every input, including the string `"0x"`;
in fact `BigInt("0x")` throws a `SyntaxError` (modelled by `none`), so
`hexToBigInt` propagates a thrown exception on that input. -/
theorem C4_counterexample_hexToBigInt_0x_throws :
    MonadDash.hexToBigInt (some "0x") = none := by decide

/-- C4 (amended): `hexToNumber` and `hexToBigInt` both map `undefined` and the
empty string to `0`; `hexToNumber` never throws on any input (its `none` result
on `"0x"` is the `NaN` *value* `parseInt` returns, not an exception); and
`hexToBigInt` returns a value on every `0x`-prefixed string with at least one
hex digit — but it does throw (outer `none`) on syntactically invalid nonempty
strings such as `"0x"` itself, which is the one part of the original claim the
code violates. -/
theorem C4_hex_conversions_amended
    (cs : List Char) (hne : cs ≠ []) (hhex : ∀ c ∈ cs, (MonadDash.hexDigitVal c).isSome) :
    MonadDash.hexToNumber none = some 0 ∧ MonadDash.hexToNumber (some "") = some 0
    ∧ MonadDash.hexToBigInt none = some 0 ∧ MonadDash.hexToBigInt (some "") = some 0
    ∧ MonadDash.hexToNumber (some "0x") = none
    ∧ (MonadDash.jsStringToBigIntChars ('0' :: 'x' :: cs)).isSome
    ∧ MonadDash.hexToBigInt (some "0x") = none := by
  refine ⟨by decide, by decide, by decide, by decide, by decide, ?_, by decide⟩
  show (MonadDash.jsStringToBigIntChars ('0' :: 'x' :: cs)).isSome
  obtain ⟨d, hd⟩ :=
    Option.isSome_iff_exists.mp (parseAllDigits_isSome hexDigitVal 16 cs hne hhex)
  simp [jsStringToBigIntChars, hd]

/-- C4 witness: the amended theorem applied at the concrete digit list `['a']`
(the string `"0xa"`). -/
theorem C4_hex_conversions_amended_witness :
    (MonadDash.jsStringToBigIntChars ['0', 'x', 'a']).isSome :=
  (C4_hex_conversions_amended ['a'] (by decide) (by decide)).2.2.2.2.2.1

/-! ## C3 -/

lemma checkRateLimit_in_window (t x : Int) (k : Nat) (hk : k < RATE_LIMIT)
    (hx1 : t ≤ x) (hx2 : x - t < RATE_LIMIT_WINDOW) :
    checkRateLimit x ⟨k, t⟩ = .ok ⟨k + 1, t⟩ := by
  have h1 : ¬ (x - t ≥ RATE_LIMIT_WINDOW) := by omega
  simp only [checkRateLimit, if_neg h1]
  rw [if_neg (by simpa using hk)]

lemma runCalls_in_window (t : Int) :
    ∀ (times : List Int) (k : Nat), k + times.length ≤ RATE_LIMIT →
      (∀ x ∈ times, t ≤ x ∧ x - t < RATE_LIMIT_WINDOW) →
      runCalls times ⟨k, t⟩ = .ok ⟨k + times.length, t⟩
  | [], k, _, _ => by simp [runCalls]
  | x :: ts, k, hk, hmem => by
    obtain ⟨hx1, hx2⟩ := hmem x (by simp)
    rw [runCalls, checkRateLimit_in_window t x k (by simp at hk; omega) hx1 hx2]
    show runCalls ts ⟨k + 1, t⟩ = _
    rw [runCalls_in_window t ts (k + 1) (by simp at hk ⊢; omega)
      (fun y hy => hmem y (by simp [hy]))]
    simp only [List.length_cons]
    congr 2
    omega

/-- C3: the fixed-window rate limiter of the high-traffic (quiknode) provider,
with limit `RATE_LIMIT = 20` per `RATE_LIMIT_WINDOW = 1000` ms: starting from a
fresh window opened at `t`, any 20 consecutive calls whose instants fall inside
the window all pass (the counter reaching 20); a 21st call at any instant `u`
still inside the window fails with a positive retry delay
`RATE_LIMIT_WINDOW - (u - t)` before any request is sent; a call at any instant
`v` with `v - t ≥ RATE_LIMIT_WINDOW` resets the counter and passes; and a call
routed to a URL not containing `"quiknode"` is never subject to the check. -/
theorem C3_rate_limiter_window (t u v : Int) (times : List Int)
    (hlen : times.length = MonadDash.RATE_LIMIT)
    (hin : ∀ x ∈ times, t ≤ x ∧ x - t < MonadDash.RATE_LIMIT_WINDOW)
    (hu1 : t ≤ u) (hu2 : u - t < MonadDash.RATE_LIMIT_WINDOW)
    (hv : v - t ≥ MonadDash.RATE_LIMIT_WINDOW)
    (url : String) (hurl : MonadDash.urlIncludes url "quiknode" = false) :
    MonadDash.runCalls times ⟨0, t⟩ = .ok ⟨MonadDash.RATE_LIMIT, t⟩
    ∧ MonadDash.checkRateLimit u ⟨MonadDash.RATE_LIMIT, t⟩ =
        .error (MonadDash.RATE_LIMIT_WINDOW - (u - t))
    ∧ 0 < MonadDash.RATE_LIMIT_WINDOW - (u - t)
    ∧ MonadDash.checkRateLimit v ⟨MonadDash.RATE_LIMIT, t⟩ = .ok ⟨1, v⟩
    ∧ (∀ (now : Int) (s : MonadDash.RateLimitState),
        MonadDash.rateLimitGate url now s = .ok s) := by
  refine ⟨?_, ?_, by omega, ?_, ?_⟩
  · have := runCalls_in_window t times 0 (by omega) hin
    rwa [hlen, Nat.zero_add] at this
  · have h1 : ¬ (u - t ≥ RATE_LIMIT_WINDOW) := by omega
    simp only [checkRateLimit, if_neg h1]
    rw [if_pos (by simp [RATE_LIMIT])]
  · have h1 : v - t ≥ RATE_LIMIT_WINDOW := hv
    simp only [checkRateLimit, if_pos h1]
    rw [if_neg (by simp [RATE_LIMIT])]
  · intro now s
    simp [rateLimitGate, hurl]

/-- C3 witness: a window opened at `t = 0`, twenty calls at instant 0, the 21st
at 500 ms (failing with a 500 ms retry delay), a resetting call at 1000 ms, and
the non-rate-limited alchemy URL. -/
theorem C3_rate_limiter_window_witness :
    MonadDash.runCalls (List.replicate 20 0) ⟨0, 0⟩ = .ok ⟨MonadDash.RATE_LIMIT, 0⟩
    ∧ MonadDash.checkRateLimit 500 ⟨MonadDash.RATE_LIMIT, 0⟩ =
        .error (MonadDash.RATE_LIMIT_WINDOW - (500 - 0))
    ∧ 0 < MonadDash.RATE_LIMIT_WINDOW - (500 - 0)
    ∧ MonadDash.checkRateLimit 1000 ⟨MonadDash.RATE_LIMIT, 0⟩ = .ok ⟨1, 1000⟩
    ∧ (∀ (now : Int) (s : MonadDash.RateLimitState),
        MonadDash.rateLimitGate "https://monad-testnet.g.alchemy.com/v2/k" now s = .ok s) :=
  C3_rate_limiter_window 0 500 1000 (List.replicate 20 0) (by decide)
    (by decide) (by decide) (by decide) (by decide)
    "https://monad-testnet.g.alchemy.com/v2/k" (by decide)

/-! ## C2 and C8 -/

lemma round2_intCast (n : ℤ) : round2 ((n : ℚ)) = (n : ℚ) := by
  unfold round2
  rw [show ((n : ℚ) * 100) = ((n * 100 : ℤ) : ℚ) by push_cast; ring, round_intCast]
  push_cast
  field_simp

lemma successRateRaw_all_success (blocks : List Block)
    (hA : ∀ tx ∈ windowTxs blocks, tx.status = some 1) :
    successRateRaw blocks = 100 := by
  unfold successRateRaw
  split_ifs with h
  · have hc : successCountOf blocks = txCountOf blocks := by
      unfold successCountOf txCountOf
      exact List.countP_eq_length.2 (fun tx htx => by simp [hA tx htx])
    rw [hc, div_self (show ((txCountOf blocks : ℚ)) ≠ 0 by exact_mod_cast h.ne')]
    norm_num
  · rfl

lemma failedTxRateRaw_all_success (blocks : List Block)
    (hA : ∀ tx ∈ windowTxs blocks, tx.status = some 1) :
    failedTxRateRaw blocks = 0 := by
  unfold failedTxRateRaw
  split_ifs with h
  · have hc : failedCountOf blocks = 0 := by
      unfold failedCountOf
      exact List.countP_eq_zero.2 (fun tx htx => by simp [hA tx htx])
    rw [hc]
    norm_num
  · rfl

lemma failedTxRateRaw_ge_five (blocks : List Block)
    (hB : txCountOf blocks < 20 * failedCountOf blocks) :
    5 ≤ failedTxRateRaw blocks := by
  have hle : failedCountOf blocks ≤ txCountOf blocks := List.countP_le_length _
  have ht : 0 < txCountOf blocks := by omega
  unfold failedTxRateRaw
  rw [if_pos ht, div_mul_eq_mul_div, le_div_iff₀ (by exact_mod_cast ht)]
  have hB2 : ((txCountOf blocks : ℚ)) < 20 * ((failedCountOf blocks : ℚ)) := by
    exact_mod_cast hB
  linarith

lemma healthScoreOf_eq_healthy_iff (blocks : List Block) :
    (healthScoreOf blocks = "Healthy" ↔
      successRateRaw blocks > 95 ∧ failedTxRateRaw blocks < 5) := by
  unfold healthScoreOf
  split_ifs with h
  · simpa using h
  · simpa using h

/-- C2: the fail-closed health classification. For any window in which every
scanned transaction has `status = 1`, the reported `successRate` is `100` and
the `healthScore` is `"Healthy"`; for any window in which strictly more than 5%
of the scanned transactions have `status = 0` (i.e.
`txCount < 20 * failedCount`), the `healthScore` is `"Needs Attention"`; and in
general the score is `"Healthy"` exactly when the raw success rate exceeds 95
and the raw failed rate is below 5 (the reported rate fields are these rates
rounded to two decimals; the classification uses the unrounded values, line
1145). -/
theorem C2_health_classification (blocksA blocksB blocksC : List MonadDash.Block)
    (fbA fbB fbC : ℚ)
    (hA : ∀ tx ∈ MonadDash.windowTxs blocksA, tx.status = some 1)
    (hB : MonadDash.txCountOf blocksB < 20 * MonadDash.failedCountOf blocksB) :
    (MonadDash.getEcosystemHealthMetricsCore blocksA fbA).successRate = 100
    ∧ (MonadDash.getEcosystemHealthMetricsCore blocksA fbA).healthScore = "Healthy"
    ∧ (MonadDash.getEcosystemHealthMetricsCore blocksB fbB).healthScore = "Needs Attention"
    ∧ ((MonadDash.getEcosystemHealthMetricsCore blocksC fbC).healthScore = "Healthy"
        ↔ MonadDash.successRateRaw blocksC > 95 ∧ MonadDash.failedTxRateRaw blocksC < 5) := by
  refine ⟨?_, ?_, ?_, ?_⟩
  · show round2 (successRateRaw blocksA) = 100
    rw [successRateRaw_all_success blocksA hA]
    exact_mod_cast round2_intCast 100
  · show healthScoreOf blocksA = "Healthy"
    rw [(healthScoreOf_eq_healthy_iff blocksA), successRateRaw_all_success blocksA hA,
      failedTxRateRaw_all_success blocksA hA]
    norm_num
  · show healthScoreOf blocksB = "Needs Attention"
    unfold healthScoreOf
    rw [if_neg]
    intro hcon
    exact absurd hcon.2 (not_lt.2 (failedTxRateRaw_ge_five blocksB hB))
  · exact healthScoreOf_eq_healthy_iff blocksC

/-- C2 witness: a one-block window with two succeeding transactions (all
`status = 1`), a one-block window whose single transaction failed (100% > 5%),
and the empty window for the classification equivalence. -/
theorem C2_health_classification_witness :
    (MonadDash.getEcosystemHealthMetricsCore
        [⟨1, 10, "0x0", some [⟨"a", none, some "x", 0, 0, some 1⟩,
          ⟨"b", none, some "x", 0, 0, some 1⟩]⟩] 1).successRate = 100
    ∧ (MonadDash.getEcosystemHealthMetricsCore
        [⟨1, 10, "0x0", some [⟨"a", none, some "x", 0, 0, some 1⟩,
          ⟨"b", none, some "x", 0, 0, some 1⟩]⟩] 1).healthScore = "Healthy"
    ∧ (MonadDash.getEcosystemHealthMetricsCore
        [⟨1, 10, "0x0", some [⟨"c", none, some "x", 0, 0, some 0⟩]⟩] 1).healthScore =
        "Needs Attention"
    ∧ ((MonadDash.getEcosystemHealthMetricsCore ([] : List MonadDash.Block) 1).healthScore =
          "Healthy"
        ↔ MonadDash.successRateRaw [] > 95 ∧ MonadDash.failedTxRateRaw [] < 5) :=
  C2_health_classification
    [⟨1, 10, "0x0", some [⟨"a", none, some "x", 0, 0, some 1⟩,
      ⟨"b", none, some "x", 0, 0, some 1⟩]⟩]
    [⟨1, 10, "0x0", some [⟨"c", none, some "x", 0, 0, some 0⟩]⟩]
    [] 1 1 1 (by decide) (by decide)

lemma optionEqSomeGetD {α : Type} (o : Option α) (d : α) (h : o.isSome) :
    o = some (o.getD d) := by
  cases o with
  | none => cases h
  | some x => rfl

lemma windowTxs_eq_nil (blocks : List Block) (hA : ∀ b ∈ blocks, blockTxs b = []) :
    windowTxs blocks = [] := by
  unfold windowTxs
  rw [List.flatten_eq_nil_iff]
  intro l hl
  obtain ⟨b, hb, rfl⟩ := List.mem_map.mp hl
  exact hA b hb

lemma recentMetricsRecord_fields (bs : List RecentBlock) (fb : List Int)
    (receiptOf : String → Option RpcReceipt) (M : RecentEcosystemHealthMetrics)
    (hM : recentMetricsRecord bs fb receiptOf = some M) :
    M.successRate = round2 (recentSuccessRateRaw bs receiptOf)
    ∧ M.healthScore = recentHealthScoreOf bs receiptOf
    ∧ M.partialFlag = (fb.length > 0 : Bool) ∧ M.failedBlocks = fb := by
  cases bs with
  | nil => simp [recentMetricsRecord] at hM
  | cons b0 rest =>
    rw [recentMetricsRecord] at hM
    obtain rfl := Option.some_injective _ hM.symm
    exact ⟨rfl, rfl, by simp, rfl⟩

lemma recentTotalTx_eq_zero (bs : List RecentBlock)
    (h : ∀ b ∈ bs, b.transactions = []) : totalTxCountOf bs = 0 := by
  unfold totalTxCountOf
  rw [List.sum_eq_zero]
  intro x hx
  obtain ⟨b, hb, rfl⟩ := List.mem_map.mp hx
  simp [h b hb]

/-- C8: on a window with zero scanned transactions the two health variants
disagree. The fail-closed `getEcosystemHealthMetrics` reports
`successRate = 100`, `failedTxRate = 0` and `"Healthy"`; the fail-open
`getRecentEcosystemHealthMetrics`, whenever it returns a result and every
successfully fetched block is empty of transactions, reports
`successRate = 0` and `"Needs Attention"`. -/
theorem C8_empty_window_opposite_classification (blocksA : List MonadDash.Block) (fb : ℚ)
    (latest : Int) (count : Nat) (fetch : Int → Option MonadDash.RecentBlock)
    (receiptOf : String → Option MonadDash.RpcReceipt)
    (M : MonadDash.RecentEcosystemHealthMetrics)
    (hA : ∀ b ∈ blocksA, MonadDash.blockTxs b = [])
    (hB : ∀ n b, fetch n = some b → b.transactions = [])
    (hM : MonadDash.getRecentEcosystemHealthMetricsFull latest count fetch receiptOf = some M) :
    (MonadDash.getEcosystemHealthMetricsCore blocksA fb).successRate = 100
    ∧ (MonadDash.getEcosystemHealthMetricsCore blocksA fb).failedTxRate = 0
    ∧ (MonadDash.getEcosystemHealthMetricsCore blocksA fb).healthScore = "Healthy"
    ∧ M.successRate = 0
    ∧ M.healthScore = "Needs Attention" := by
  have hAtx : ∀ tx ∈ windowTxs blocksA, tx.status = some 1 := by
    rw [windowTxs_eq_nil blocksA hA]
    intro tx htx
    exact absurd htx (List.not_mem_nil tx)
  have hbs : ∀ b ∈ (recentSurvivors latest count fetch).fst, b.transactions = [] := by
    intro b hb
    unfold recentSurvivors at hb
    simp only at hb
    obtain ⟨o, ho, hob⟩ := List.mem_filterMap.mp hb
    obtain ⟨n, _, hn⟩ := List.mem_map.mp ho
    exact hB n b (by rw [hn]; exact hob)
  have htot : totalTxCountOf (recentSurvivors latest count fetch).fst = 0 :=
    recentTotalTx_eq_zero _ hbs
  obtain ⟨hsr, hhs, _, _⟩ :=
    recentMetricsRecord_fields (recentSurvivors latest count fetch).fst
      (recentSurvivors latest count fetch).snd receiptOf M hM
  have hraw : recentSuccessRateRaw (recentSurvivors latest count fetch).fst receiptOf = 0 := by
    unfold recentSuccessRateRaw
    rw [if_neg (by omega)]
  refine ⟨?_, ?_, ?_, ?_, ?_⟩
  · show round2 (successRateRaw blocksA) = 100
    rw [successRateRaw_all_success blocksA hAtx]
    exact_mod_cast round2_intCast 100
  · show round2 (failedTxRateRaw blocksA) = 0
    rw [failedTxRateRaw_all_success blocksA hAtx]
    exact_mod_cast round2_intCast 0
  · show healthScoreOf blocksA = "Healthy"
    rw [(healthScoreOf_eq_healthy_iff blocksA), successRateRaw_all_success blocksA hAtx,
      failedTxRateRaw_all_success blocksA hAtx]
    norm_num
  · rw [hsr, hraw]
    exact_mod_cast round2_intCast 0
  · rw [hhs]
    unfold recentHealthScoreOf
    rw [if_neg]
    rw [hraw]
    intro hcon
    exact absurd hcon.1 (by norm_num)

/-- C8 witness: the empty fail-closed window against a fail-open run whose only
fetched block (block 5) exists but carries no transactions. -/
theorem C8_empty_window_opposite_classification_witness :
    (MonadDash.getEcosystemHealthMetricsCore ([] : List MonadDash.Block) 1).successRate = 100
    ∧ (MonadDash.getEcosystemHealthMetricsCore ([] : List MonadDash.Block) 1).failedTxRate = 0
    ∧ (MonadDash.getEcosystemHealthMetricsCore ([] : List MonadDash.Block) 1).healthScore =
        "Healthy"
    ∧ (Option.getD
        (MonadDash.getRecentEcosystemHealthMetricsFull 5 1
          (fun n => if n = 5 then some ⟨5, 10, "0x0", [], none⟩ else none)
          (fun _ => none))
        (MonadDash.RecentEcosystemHealthMetrics.mk 0 0 0 0 0 0 0 "" 0 0 0 0 0 false [])
      ).successRate = 0
    ∧ (Option.getD
        (MonadDash.getRecentEcosystemHealthMetricsFull 5 1
          (fun n => if n = 5 then some ⟨5, 10, "0x0", [], none⟩ else none)
          (fun _ => none))
        (MonadDash.RecentEcosystemHealthMetrics.mk 0 0 0 0 0 0 0 "" 0 0 0 0 0 false [])
      ).healthScore = "Needs Attention" := by
  have h := C8_empty_window_opposite_classification [] 1 5 1
    (fun n => if n = 5 then some ⟨5, 10, "0x0", [], none⟩ else none)
    (fun _ => none)
    ((MonadDash.getRecentEcosystemHealthMetricsFull 5 1
        (fun n => if n = 5 then some ⟨5, 10, "0x0", [], none⟩ else none)
        (fun _ => none)).getD
      (MonadDash.RecentEcosystemHealthMetrics.mk 0 0 0 0 0 0 0 "" 0 0 0 0 0 false []))
    (by intro b hb; exact absurd hb (List.not_mem_nil b))
    (by
      intro n b hnb
      dsimp only at hnb
      split_ifs at hnb with hn
      have hb := Option.some_inj.mp hnb
      subst hb
      rfl)
    (optionEqSomeGetD _ _ (by decide))
  exact h

/-! ## C5 -/

/-- The fetch oracle of the C5 failing input: the latest block (number 10)
fails to fetch, blocks 9 and 8 succeed. -/
def c5Fetch (n : Int) : Option RecentBlock :=
  if n = 10 then none else some ⟨n, 100 + n, "0x0", [], none⟩

/-- C5 (code bug): with `latestBlockNumber = 10` and `blockCount = 3` the
requested blocks are `[10, 9, 8]`; only the fetch of block 10 fails, yet the
returned `failedBlocks` is `[8]` — a block whose fetch succeeded — and block 10
is not reported. The source computes `failedBlocks` by testing `!blocks[idx]`
against the already `filter(Boolean)`-ed `blocks` array (lines 1220-1221), so
the reported numbers are always the tail of the requested ones rather than the
requests that actually failed; only `partialFlag` (the count of failures) is
right. -/
theorem C5_failedBlocks_misaligned :
    MonadDash.c5Fetch 10 = none
    ∧ (MonadDash.c5Fetch 9).isSome ∧ (MonadDash.c5Fetch 8).isSome
    ∧ ((MonadDash.getRecentEcosystemHealthMetricsFull 10 3 MonadDash.c5Fetch
          (fun _ => none)).map
        (fun m => (m.failedBlocks, m.partialFlag))) = some ([8], true) := by
  refine ⟨rfl, rfl, rfl, ?_⟩
  decide

/-! ## C1 and C9 -/

lemma sortById_perm {α : Type} (l : List (RpcResponse α)) : List.Perm (sortById l) l :=
  List.perm_insertionSort _ l

lemma sortById_sorted {α : Type} (l : List (RpcResponse α)) :
    (sortById l).Sorted (fun a b => a.id ≤ b.id) := by
  haveI : IsTotal (RpcResponse α) (fun a b => a.id ≤ b.id) :=
    ⟨fun a b => Nat.le_total a.id b.id⟩
  haveI : IsTrans (RpcResponse α) (fun a b => a.id ≤ b.id) :=
    ⟨fun a b c hab hbc => Nat.le_trans hab hbc⟩
  exact List.sorted_insertionSort _ l

/-- Two sorted permutations of each other agree when their keys are distinct
(the id-comparator of the batch sort is not antisymmetric on responses, but the
locally assigned ids are unique). -/
lemma sorted_perm_nodup_key_eq {α : Type} (key : α → Nat) :
    ∀ (l₁ l₂ : List α), List.Perm l₁ l₂ → l₁.Sorted (fun a b => key a ≤ key b) →
      l₂.Sorted (fun a b => key a ≤ key b) → (l₁.map key).Nodup → l₁ = l₂
  | [], l₂, hp, _, _, _ => (hp.symm.eq_nil).symm
  | a :: t₁, l₂, hp, hs₁, hs₂, hn => by
    cases l₂ with
    | nil => exact absurd hp.eq_nil (by simp)
    | cons b t₂ =>
      have hab : a = b := by
        by_contra hne
        have ha2 : a ∈ t₂ := by
          rcases List.mem_cons.mp (hp.subset (List.mem_cons_self a t₁)) with h | h
          · exact absurd h hne
          · exact h
        have hb1 : b ∈ t₁ := by
          rcases List.mem_cons.mp (hp.symm.subset (List.mem_cons_self b t₂)) with h | h
          · exact absurd h.symm hne
          · exact h
        have h1 : key a ≤ key b := (List.sorted_cons.mp hs₁).1 b hb1
        have h2 : key b ≤ key a := (List.sorted_cons.mp hs₂).1 a ha2
        have hkey : key a = key b := le_antisymm h1 h2
        have hnot : key a ∉ t₁.map key := by
          rw [List.map_cons, List.nodup_cons] at hn
          exact hn.1
        exact hnot (hkey ▸ List.mem_map_of_mem key hb1)
      subst hab
      have ht : List.Perm t₁ t₂ := hp.cons_inv
      have := sorted_perm_nodup_key_eq key t₁ t₂ ht (List.sorted_cons.mp hs₁).2
        (List.sorted_cons.mp hs₂).2 (by rw [List.map_cons, List.nodup_cons] at hn; exact hn.2)
      rw [this]

lemma batchToResults_of_perm {α : Type} (ids : List Nat) (res : Nat → Option α)
    (err : Nat → Option String) (rs : List (RpcResponse α))
    (hpw : ids.Pairwise (· < ·))
    (hperm : List.Perm rs (canonicalResponses ids res err)) :
    batchToResults rs =
      ids.map (fun i => match err i with | some _ => none | none => res i) := by
  have hcansorted : (canonicalResponses ids res err).Sorted (fun a b => a.id ≤ b.id) := by
    unfold canonicalResponses
    rw [List.Sorted, List.pairwise_map]
    exact hpw.imp (fun h => Nat.le_of_lt h)
  have hq : List.Perm (sortById rs) (canonicalResponses ids res err) := (sortById_perm rs).trans hperm
  have hnodup : ((sortById rs).map (fun r => r.id)).Nodup := by
    rw [(hq.map (fun r => r.id)).nodup_iff]
    unfold canonicalResponses
    rw [List.map_map]
    have : ((fun r : RpcResponse α => r.id) ∘ fun i => (⟨i, res i, err i⟩ : RpcResponse α)) =
        id := rfl
    rw [this, List.map_id]
    exact hpw.nodup
  have heq : sortById rs = canonicalResponses ids res err :=
    sorted_perm_nodup_key_eq (fun r => r.id) (sortById rs) (canonicalResponses ids res err)
      hq (sortById_sorted rs) hcansorted hnodup
  unfold batchToResults
  rw [heq]
  unfold canonicalResponses
  rw [List.map_map]
  rfl

/-- C1: when the provider returns all `N` sub-responses of a batch — in any
order, each tagged with the locally assigned id `0..N-1`, some possibly
carrying an `error` field — `batchBlockVisionData`'s response processing
returns exactly `N` entries, re-sorted so that entry `i` is request `i`'s
sub-response, mapped to `null` (`none`) when that sub-response carries an
`error` and to its `result` otherwise. -/
theorem C1_batch_resorts_and_nulls_errors {α : Type} (N : Nat)
    (res : Nat → Option α) (err : Nat → Option String)
    (rs : List (MonadDash.RpcResponse α))
    (hperm : List.Perm rs (MonadDash.canonicalResponses (List.range N) res err)) :
    (MonadDash.batchToResults rs).length = N
    ∧ MonadDash.batchToResults rs =
        (List.range N).map (fun i => match err i with | some _ => none | none => res i) := by
  have h := batchToResults_of_perm (List.range N) res err rs (List.pairwise_lt_range N) hperm
  exact ⟨by rw [h, List.length_map, List.length_range], h⟩

/-- C1 witness: three requests whose responses arrive in reverse order with
request 1 carrying an error: the processed results are positional again, with
`none` in slot 1. -/
theorem C1_batch_resorts_and_nulls_errors_witness :
    (MonadDash.batchToResults
        [⟨2, some 102, none⟩, ⟨1, some 101, some "boom"⟩, ⟨0, some 100, none⟩]).length = 3
    ∧ MonadDash.batchToResults
        [⟨2, some 102, none⟩, ⟨1, some 101, some "boom"⟩, ⟨0, some 100, none⟩] =
      (List.range 3).map
        (fun i => match (if i = 1 then some "boom" else none) with
          | some _ => none
          | none => some (100 + i)) :=
  C1_batch_resorts_and_nulls_errors 3 (fun i => some (100 + i))
    (fun i => if i = 1 then some "boom" else none)
    [⟨2, some 102, none⟩, ⟨1, some 101, some "boom"⟩, ⟨0, some 100, none⟩]
    (by decide)

/-- C9: when the provider omits some sub-responses — the received ids are
`ids`, a strictly increasing proper subset of the requested `0..N-1` — the
processing returns exactly one entry per *received* sub-response, an array
strictly shorter than the request list, entry `j` being the sub-response with
the `j`-th smallest received id (so entries after an omission no longer sit at
their originating request's index); only received sub-responses carrying an
`error` are mapped to `null`. -/
theorem C9_batch_omissions_shift {α : Type} (N : Nat) (ids : List Nat)
    (res : Nat → Option α) (err : Nat → Option String)
    (rs : List (MonadDash.RpcResponse α))
    (hpw : ids.Pairwise (· < ·)) (hsub : ∀ i ∈ ids, i < N) (hshort : ids.length < N)
    (hperm : List.Perm rs (MonadDash.canonicalResponses ids res err)) :
    (MonadDash.batchToResults rs).length = ids.length
    ∧ (MonadDash.batchToResults rs).length < N
    ∧ MonadDash.batchToResults rs =
        ids.map (fun i => match err i with | some _ => none | none => res i) := by
  have h := batchToResults_of_perm ids res err rs hpw hperm
  refine ⟨by rw [h, List.length_map], by rw [h, List.length_map]; exact hshort, h⟩

/-- C9 witness: of three requests, responses for ids 0 and 2 arrive (out of
order); the result has two entries and the slot at index 1 now holds request
2's result. -/
theorem C9_batch_omissions_shift_witness :
    (MonadDash.batchToResults [⟨2, some 102, none⟩, ⟨0, some 100, none⟩]).length = 2
    ∧ (MonadDash.batchToResults [⟨2, some 102, none⟩, ⟨0, some 100, none⟩]).length < 3
    ∧ MonadDash.batchToResults [⟨2, some 102, none⟩, ⟨0, some 100, none⟩] =
        [0, 2].map (fun i => match (none : Option String) with
          | some _ => none
          | none => some (100 + i)) :=
  C9_batch_omissions_shift 3 [0, 2] (fun i => some (100 + i)) (fun _ => none)
    [⟨2, some 102, none⟩, ⟨0, some 100, none⟩]
    (by decide) (by decide) (by decide) (by decide)

/-! ## C7: lemmas about first-occurrence deduplication -/

lemma keepFirstByAux_congr {α : Type} (key : α → String) :
    ∀ (l : List α) (s₁ s₂ : List String), (∀ x, x ∈ s₁ ↔ x ∈ s₂) →
      keepFirstByAux key s₁ l = keepFirstByAux key s₂ l
  | [], _, _, _ => rfl
  | e :: rest, s₁, s₂, hiff => by
    by_cases h : key e ∈ s₁
    · rw [keepFirstByAux, if_pos h, keepFirstByAux, if_pos ((hiff _).mp h)]
      exact keepFirstByAux_congr key rest s₁ s₂ hiff
    · rw [keepFirstByAux, if_neg h, keepFirstByAux, if_neg (fun hc => h ((hiff _).mpr hc))]
      rw [keepFirstByAux_congr key rest (key e :: s₁) (key e :: s₂)
        (fun x => by simp [hiff x])]

lemma keepFirstByAux_append {α : Type} (key : α → String) :
    ∀ (xs ys : List α) (s : List String),
      keepFirstByAux key s (xs ++ ys) =
        keepFirstByAux key s xs ++ keepFirstByAux key (xs.map key ++ s) ys
  | [], ys, s => by simp [keepFirstByAux]
  | e :: xs, ys, s => by
    by_cases h : key e ∈ s
    · rw [List.cons_append, keepFirstByAux, if_pos h, keepFirstByAux, if_pos h,
        keepFirstByAux_append key xs ys s]
      congr 1
      exact keepFirstByAux_congr key ys _ _
        (fun x => by
          simp only [List.map_cons, List.cons_append, List.mem_cons, List.mem_append]
          constructor
          · exact fun hx => Or.inr hx
          · rintro (rfl | hx)
            · exact Or.inr h
            · exact hx)
    · rw [List.cons_append, keepFirstByAux, if_neg h, keepFirstByAux, if_neg h,
        keepFirstByAux_append key xs ys (key e :: s), List.cons_append]
      congr 2
      exact keepFirstByAux_congr key ys _ _
        (fun x => by
          simp only [List.map_cons, List.cons_append, List.mem_cons, List.mem_append]
          tauto)

lemma keepFirstByAux_eq_nil {α : Type} (key : α → String) :
    ∀ (l : List α) (s : List String), (∀ e ∈ l, key e ∈ s) →
      keepFirstByAux key s l = []
  | [], _, _ => rfl
  | e :: rest, s, h => by
    rw [keepFirstByAux, if_pos (h e (by simp))]
    exact keepFirstByAux_eq_nil key rest s (fun x hx => h x (by simp [hx]))

lemma keepFirstByAux_eq_self {α : Type} (key : α → String) :
    ∀ (l : List α) (s : List String), (∀ e ∈ l, key e ∉ s) → (l.map key).Nodup →
      keepFirstByAux key s l = l
  | [], _, _, _ => rfl
  | e :: rest, s, h, hn => by
    rw [keepFirstByAux, if_neg (h e (by simp))]
    rw [List.map_cons, List.nodup_cons] at hn
    rw [keepFirstByAux_eq_self key rest (key e :: s)
      (fun x hx => by
        simp only [List.mem_cons]
        rintro (hc | hc)
        · exact hn.1 (hc ▸ List.mem_map_of_mem key hx)
        · exact h x (by simp [hx]) hc)
      hn.2]

lemma keepFirstByAux_key_not_mem {α : Type} (key : α → String) :
    ∀ (l : List α) (s : List String) (e : α), e ∈ keepFirstByAux key s l → key e ∉ s
  | [], _, _, he => absurd he (List.not_mem_nil _)
  | e0 :: rest, s, e, he => by
    by_cases h : key e0 ∈ s
    · rw [keepFirstByAux, if_pos h] at he
      exact keepFirstByAux_key_not_mem key rest s e he
    · rw [keepFirstByAux, if_neg h] at he
      rcases List.mem_cons.mp he with rfl | hmem
      · exact h
      · have := keepFirstByAux_key_not_mem key rest (key e0 :: s) e hmem
        intro hc
        exact this (by simp [hc])

lemma keepFirstByAux_keys_nodup {α : Type} (key : α → String) :
    ∀ (l : List α) (s : List String), ((keepFirstByAux key s l).map key).Nodup
  | [], _ => by simp [keepFirstByAux]
  | e :: rest, s => by
    by_cases h : key e ∈ s
    · rw [keepFirstByAux, if_pos h]
      exact keepFirstByAux_keys_nodup key rest s
    · rw [keepFirstByAux, if_neg h, List.map_cons, List.nodup_cons]
      refine ⟨?_, keepFirstByAux_keys_nodup key rest (key e :: s)⟩
      intro hc
      obtain ⟨x, hx, hkx⟩ := List.mem_map.mp hc
      exact keepFirstByAux_key_not_mem key rest (key e :: s) x hx (by simp [hkx])

lemma keepFirstByAux_subset {α : Type} (key : α → String) :
    ∀ (l : List α) (s : List String) (e : α), e ∈ keepFirstByAux key s l → e ∈ l
  | [], _, _, he => absurd he (List.not_mem_nil _)
  | e0 :: rest, s, e, he => by
    by_cases h : key e0 ∈ s
    · rw [keepFirstByAux, if_pos h] at he
      exact List.mem_cons.mpr (Or.inr (keepFirstByAux_subset key rest s e he))
    · rw [keepFirstByAux, if_neg h] at he
      rcases List.mem_cons.mp he with rfl | hmem
      · simp
      · exact List.mem_cons.mpr (Or.inr (keepFirstByAux_subset key rest _ e hmem))

lemma keepFirstBy_append {α : Type} (key : α → String) (xs ys : List α) :
    keepFirstBy key (xs ++ ys) =
      keepFirstBy key xs ++ keepFirstByAux key (xs.map key) ys := by
  unfold keepFirstBy
  rw [keepFirstByAux_append key xs ys [], List.append_nil]

/-- The shared shape of both panel merges: prepend the new entries, drop later
duplicates by key, cap the length. Re-merging the same new entries is the
identity. -/
lemma dedup_take_merge_idem {α : Type} (key : α → String) (cap : Nat) (n p : List α) :
    (keepFirstBy key (n ++ (keepFirstBy key (n ++ p)).take cap)).take cap
      = (keepFirstBy key (n ++ p)).take cap := by
  have h1 : keepFirstBy key (n ++ p) =
      keepFirstBy key n ++ keepFirstByAux key (n.map key) p := keepFirstBy_append key n p
  set dn := keepFirstBy key n with hdn
  set X := keepFirstByAux key (n.map key) p with hX
  have hD : (dn ++ X).take cap = dn.take cap ++ X.take (cap - dn.length) :=
    List.take_append_eq_append_take
  have hdnkeys : ∀ e ∈ dn, key e ∈ n.map key := fun e he =>
    List.mem_map_of_mem key (keepFirstByAux_subset key n [] e he)
  have h2 : keepFirstBy key (n ++ (dn ++ X).take cap) = dn ++ X.take (cap - dn.length) := by
    rw [keepFirstBy_append, hD, keepFirstByAux_append]
    have hz : keepFirstByAux key (n.map key) (dn.take cap) = [] :=
      keepFirstByAux_eq_nil key _ _
        (fun e he => hdnkeys e (List.take_subset cap dn he))
    rw [hz, List.nil_append]
    have hcongr : keepFirstByAux key ((dn.take cap).map key ++ n.map key)
        (X.take (cap - dn.length)) =
        keepFirstByAux key (n.map key) (X.take (cap - dn.length)) :=
      keepFirstByAux_congr key _ _ _
        (fun x => by
          simp only [List.mem_append]
          constructor
          · rintro (hx | hx)
            · obtain ⟨e, he, rfl⟩ := List.mem_map.mp hx
              exact hdnkeys e (List.take_subset cap dn he)
            · exact hx
          · exact fun hx => Or.inr hx)
    rw [hcongr, keepFirstByAux_eq_self key _ _
      (fun e he => keepFirstByAux_key_not_mem key p (n.map key) e
        (List.take_subset _ X he))
      (by
        have : (X.take (cap - dn.length)).map key = (X.map key).take (cap - dn.length) :=
          List.map_take ..
        rw [this]
        exact (keepFirstByAux_keys_nodup key p (n.map key)).sublist
          ((X.map key).take_sublist _))]
  rw [h1, h2, hD, List.take_append_eq_append_take, List.take_take, Nat.min_self]

/-- The common shape of both merges once the new entries are in place: a fixed
prefix `A` whose keys all lie in the taken-key set `S`, followed by the
`S`-filtered dedup of the older entries, capped; re-filtering and re-capping
the merged result against the same `A` and `S` changes nothing. -/
lemma prefix_dedup_take_idem {α : Type} (key : α → String) (cap : Nat) (A p : List α)
    (S : List String) (hA : ∀ e ∈ A, key e ∈ S) :
    (A ++ keepFirstByAux key S ((A ++ keepFirstByAux key S p).take cap)).take cap
      = (A ++ keepFirstByAux key S p).take cap := by
  set X := keepFirstByAux key S p with hX
  have hD : (A ++ X).take cap = A.take cap ++ X.take (cap - A.length) :=
    List.take_append_eq_append_take
  have h2 : keepFirstByAux key S ((A ++ X).take cap) = X.take (cap - A.length) := by
    rw [hD, keepFirstByAux_append,
      keepFirstByAux_eq_nil key _ _ (fun e he => hA e (List.take_subset cap A he)),
      List.nil_append,
      keepFirstByAux_congr key _ ((A.take cap).map key ++ S) S
        (fun x => by
          constructor
          · intro hx
            rcases List.mem_append.mp hx with hx | hx
            · obtain ⟨e, he, rfl⟩ := List.mem_map.mp hx
              exact hA e (List.take_subset cap A he)
            · exact hx
          · exact fun hx => List.mem_append.mpr (Or.inr hx))]
    exact keepFirstByAux_eq_self key _ _
      (fun e he => keepFirstByAux_key_not_mem key p S e (List.take_subset _ X he))
      (by
        rw [List.map_take]
        exact (keepFirstByAux_keys_nodup key p S).sublist ((X.map key).take_sublist _))
  rw [h2, hD, List.take_append_eq_append_take, List.take_take]
  simp

lemma mapHas_iff {α : Type} (m : List (String × α)) (k : String) :
    mapHas m k = true ↔ k ∈ m.map Prod.fst := by
  simp only [mapHas, List.any_eq_true, decide_eq_true_eq, List.mem_map]

lemma mapSet_snd_key {α : Type} (key : α → String) (m : List (String × α)) (k : String)
    (v : α) (hm : ∀ q ∈ m, key q.snd = q.fst) (hv : key v = k) :
    ∀ q ∈ mapSet m k v, key q.snd = q.fst := by
  intro q hq
  unfold mapSet at hq
  split_ifs at hq with h
  · obtain ⟨r, hr, rfl⟩ := List.mem_map.mp hq
    by_cases hrk : r.fst = k
    · rw [if_pos hrk]
      exact hv
    · rw [if_neg hrk]
      exact hm r hr
  · rcases List.mem_append.mp hq with hq | hq
    · exact hm q hq
    · rw [List.mem_singleton.mp hq]
      exact hv

lemma mapSet_keys {α : Type} (m : List (String × α)) (k : String) (v : α) :
    (mapSet m k v).map Prod.fst =
      if mapHas m k then m.map Prod.fst else m.map Prod.fst ++ [k] := by
  unfold mapSet mapHas
  split_ifs with h
  · rw [List.map_map]
    refine List.map_congr_left (fun q _ => ?_)
    by_cases hq : q.fst = k
    · simp [hq]
    · simp [hq]
  · simp

lemma foldl_mapSet_snd_key {α : Type} (key : α → String) :
    ∀ (n : List α) (m : List (String × α)), (∀ q ∈ m, key q.snd = q.fst) →
      ∀ q ∈ n.foldl (fun m tx => mapSet m (key tx) tx) m, key q.snd = q.fst
  | [], m, hm => hm
  | tx :: n, m, hm => by
    rw [List.foldl_cons]
    exact foldl_mapSet_snd_key key n (mapSet m (key tx) tx)
      (mapSet_snd_key key m (key tx) tx hm rfl)

lemma foldl_mapSet_keys_mem {α : Type} (key : α → String) :
    ∀ (n : List α) (m : List (String × α)) (k : String),
      (k ∈ (n.foldl (fun m tx => mapSet m (key tx) tx) m).map Prod.fst ↔
        k ∈ m.map Prod.fst ∨ k ∈ n.map key)
  | [], m, k => by simp
  | tx :: n, m, k => by
    rw [List.foldl_cons, foldl_mapSet_keys_mem key n (mapSet m (key tx) tx) k,
      mapSet_keys]
    by_cases h : mapHas m (key tx)
    · rw [if_pos h]
      have hk := (mapHas_iff m (key tx)).mp h
      simp only [List.map_cons, List.mem_cons]
      constructor
      · rintro (hx | hx)
        · exact Or.inl hx
        · exact Or.inr (Or.inr hx)
      · rintro (hx | rfl | hx)
        · exact Or.inl hx
        · exact Or.inl hk
        · exact Or.inr hx
    · rw [if_neg h]
      simp only [List.mem_append, List.mem_singleton, List.map_cons, List.mem_cons]
      tauto

lemma foldl_mapSet_keys_nodup {α : Type} (key : α → String) :
    ∀ (n : List α) (m : List (String × α)), (m.map Prod.fst).Nodup →
      ((n.foldl (fun m tx => mapSet m (key tx) tx) m).map Prod.fst).Nodup
  | [], _, hm => hm
  | tx :: n, m, hm => by
    rw [List.foldl_cons]
    refine foldl_mapSet_keys_nodup key n _ ?_
    rw [mapSet_keys]
    split_ifs with h
    · exact hm
    · rw [List.nodup_append]
      refine ⟨hm, List.nodup_singleton _, ?_⟩
      intro a ha hb
      rw [List.mem_singleton.mp hb] at ha
      exact h ((mapHas_iff m (key tx)).mpr ha)

lemma foldl_addAbsent_eq {α : Type} (key : α → String) :
    ∀ (l : List α) (m : List (String × α)),
      l.foldl (fun m tx => if mapHas m (key tx) then m else m ++ [(key tx, tx)]) m
        = m ++ (keepFirstByAux key (m.map Prod.fst) l).map (fun tx => (key tx, tx))
  | [], m => by simp [keepFirstByAux]
  | tx :: l, m => by
    rw [List.foldl_cons]
    by_cases h : mapHas m (key tx)
    · rw [if_pos h, foldl_addAbsent_eq key l m, keepFirstByAux,
        if_pos ((mapHas_iff m (key tx)).mp h)]
    · rw [if_neg h, foldl_addAbsent_eq key l (m ++ [(key tx, tx)]), keepFirstByAux,
        if_neg (fun hc => h ((mapHas_iff m (key tx)).mpr hc))]
      have hseen : keepFirstByAux key ((m ++ [(key tx, tx)]).map Prod.fst) l
          = keepFirstByAux key (key tx :: m.map Prod.fst) l :=
        keepFirstByAux_congr key l _ _ (fun x => by
          simp only [List.map_append, List.map_cons, List.map_nil, List.mem_append,
            List.mem_cons, List.not_mem_nil, or_false, List.mem_singleton]
          tauto)
      rw [hseen, List.append_assoc, List.map_cons, List.singleton_append]

/-- `mergeHighGasTxs` rewritten through the association-list characterisation:
the deduplicated new entries (`m1`, positions of first occurrence, values of
last write) followed by the hash-filtered first occurrences of the previous
entries, capped at 12. -/
lemma mergeHighGasTxs_eq (n p : List Transaction) :
    mergeHighGasTxs n p =
      (((n.foldl (fun m tx => mapSet m tx.hash tx) []).map Prod.snd)
        ++ keepFirstByAux Transaction.hash
            ((n.foldl (fun m tx => mapSet m tx.hash tx) []).map Prod.fst) p).take 12 := by
  unfold mergeHighGasTxs
  rw [show (fun (m : List (String × Transaction)) (tx : Transaction) =>
        if mapHas m tx.hash then m else m ++ [(tx.hash, tx)]) =
      (fun m tx => if mapHas m (Transaction.hash tx) then m
        else m ++ [(Transaction.hash tx, tx)]) from rfl,
    foldl_addAbsent_eq Transaction.hash p (n.foldl (fun m tx => mapSet m tx.hash tx) []),
    List.map_append, List.map_map]
  congr 1
  rw [show (List.map ((fun (q : String × Transaction) => q.2) ∘ fun tx => (tx.hash, tx))
      (keepFirstByAux Transaction.hash
        (List.map Prod.fst (List.foldl (fun m tx => mapSet m tx.hash tx) [] n)) p)) =
    keepFirstByAux Transaction.hash
      (List.map Prod.fst (List.foldl (fun m tx => mapSet m tx.hash tx) [] n)) p
    from List.map_id _]

/-- C7: merging an identical aggregator result into cached panel state twice
equals merging it once, for both cumulative panels. The events panel
(`checkForNewEvents`) deduplicates by event id keeping first occurrences and
caps at 20; the high-gas panel (`fetchOverview`) deduplicates by transaction
hash in a `Map` and caps at 12, preferring the most recent entries. In both
cases the re-merge adds no entry and leaves the displayed list (hence its
count) unchanged, the merged list never exceeds its cap, and its keys are
duplicate-free. -/
theorem C7_merge_idempotent :
    (∀ (n p : List MonadDash.Event),
        MonadDash.mergeEvents n (MonadDash.mergeEvents n p) = MonadDash.mergeEvents n p)
    ∧ (∀ (n p : List MonadDash.Transaction),
        MonadDash.mergeHighGasTxs n (MonadDash.mergeHighGasTxs n p) =
          MonadDash.mergeHighGasTxs n p)
    ∧ (∀ (n p : List MonadDash.Event), 0 < n.length →
        ((MonadDash.mergeEvents n p).map MonadDash.Event.id).Nodup
        ∧ (MonadDash.mergeEvents n p).length ≤ 20)
    ∧ (∀ (n p : List MonadDash.Transaction),
        ((MonadDash.mergeHighGasTxs n p).map MonadDash.Transaction.hash).Nodup
        ∧ (MonadDash.mergeHighGasTxs n p).length ≤ 12) := by
  have hmain : ∀ (n p : List Transaction),
      mergeHighGasTxs n (mergeHighGasTxs n p) = mergeHighGasTxs n p := by
    intro n p
    have hm1 : ∀ q ∈ n.foldl (fun m tx => mapSet m tx.hash tx) [], q.snd.hash = q.fst :=
      foldl_mapSet_snd_key Transaction.hash n [] (by simp)
    rw [mergeHighGasTxs_eq, mergeHighGasTxs_eq]
    exact prefix_dedup_take_idem Transaction.hash 12 _ p _
      (fun e he => by
        obtain ⟨q, hq, rfl⟩ := List.mem_map.mp he
        rw [hm1 q hq]
        exact List.mem_map_of_mem Prod.fst hq)
  refine ⟨?_, hmain, ?_, ?_⟩
  · intro n p
    by_cases hn : n.length > 0
    · simp only [mergeEvents, if_pos hn, keepFirstBy_append]
      exact prefix_dedup_take_idem Event.id 20 (keepFirstBy Event.id n) p (n.map Event.id)
        (fun e he => List.mem_map_of_mem Event.id (keepFirstByAux_subset Event.id n [] e he))
    · simp only [mergeEvents, if_neg hn]
  · intro n p hn
    simp only [mergeEvents, if_pos hn]
    refine ⟨?_, List.length_take_le 20 _⟩
    rw [List.map_take]
    exact (keepFirstByAux_keys_nodup Event.id (n ++ p) []).sublist (List.take_sublist ..)
  · intro n p
    rw [mergeHighGasTxs_eq]
    refine ⟨?_, List.length_take_le 12 _⟩
    rw [List.map_take]
    refine List.Nodup.sublist (List.take_sublist ..) ?_
    rw [List.map_append]
    have hm1 : ∀ q ∈ n.foldl (fun m tx => mapSet m tx.hash tx) [], q.snd.hash = q.fst :=
      foldl_mapSet_snd_key Transaction.hash n [] (by simp)
    have hA : ((n.foldl (fun m tx => mapSet m tx.hash tx) []).map Prod.snd).map
        Transaction.hash =
        (n.foldl (fun m tx => mapSet m tx.hash tx) []).map Prod.fst := by
      rw [List.map_map]
      exact List.map_congr_left (fun q hq => hm1 q hq)
    rw [hA, List.nodup_append]
    refine ⟨foldl_mapSet_keys_nodup Transaction.hash n [] (by simp),
      keepFirstByAux_keys_nodup Transaction.hash p _, ?_⟩
    intro a ha hb
    obtain ⟨e, he, rfl⟩ := List.mem_map.mp hb
    exact keepFirstByAux_key_not_mem Transaction.hash p _ e he ha

/-- C7 witness: the nodup/cap conjunct instantiated at a concrete nonempty
new-events list (its hypothesis `0 < length` discharged by computation). -/
theorem C7_merge_idempotent_witness :
    ((MonadDash.mergeEvents
        [⟨"event-1", "t", 0, "a", "d", "s", none, none, none, none⟩]
        []).map MonadDash.Event.id).Nodup
    ∧ (MonadDash.mergeEvents
        [⟨"event-1", "t", 0, "a", "d", "s", none, none, none, none⟩]
        []).length ≤ 20 :=
  C7_merge_idempotent.2.2.1
    [⟨"event-1", "t", 0, "a", "d", "s", none, none, none, none⟩] [] (by decide)

/-! ## C6 -/

lemma bucketSum_append_one (l : List Block) (b : Block) (k : Int) :
    bucketSum (l ++ [b]) k = bucketSum l k +
      (if ¬(b.timestamp = 0 ∨ b.gasUsed = "") ∧ minuteKey b.timestamp = k
        then (parseInt16 b.gasUsed).getD 0 else 0) := by
  unfold bucketSum
  rw [List.filter_append, List.map_append, List.sum_append]
  by_cases hA : b.timestamp = 0 <;> by_cases hB : b.gasUsed = "" <;>
    by_cases hk : minuteKey b.timestamp = k <;>
    simp [List.filter_singleton, hA, hB, hk]

lemma addBlockGas_invariant (m : Int → Option JsNum) (b : Block) (done : List Block)
    (hb : (parseInt16 b.gasUsed).isSome)
    (hm : ∀ k, jsOrZero (m k) = bucketSum done k) :
    ∀ k, jsOrZero (addBlockGas m b k) = bucketSum (done ++ [b]) k := by
  intro k
  rw [bucketSum_append_one]
  obtain ⟨g, hg⟩ := Option.isSome_iff_exists.mp hb
  by_cases hskip : b.timestamp = 0 ∨ b.gasUsed = ""
  · rw [show addBlockGas m b = m from by unfold addBlockGas; rw [if_pos hskip]]
    rw [hm k, if_neg (fun hc => hc.1 hskip), add_zero]
  · have hfun : addBlockGas m b = fun k2 =>
        if k2 = minuteKey b.timestamp
        then some ((parseInt16 b.gasUsed).map
          (fun g2 => jsOrZero (m (minuteKey b.timestamp)) + g2))
        else m k2 := by
      unfold addBlockGas
      rw [if_neg hskip]
    rw [hfun]
    show jsOrZero (if k = minuteKey b.timestamp
        then some ((parseInt16 b.gasUsed).map
          (fun g2 => jsOrZero (m (minuteKey b.timestamp)) + g2))
        else m k) = _
    by_cases hk : k = minuteKey b.timestamp
    · rw [if_pos hk, hg, if_pos ⟨hskip, hk.symm⟩]
      show jsOrZero (some (some (jsOrZero (m (minuteKey b.timestamp)) + g))) = _
      rw [show jsOrZero (some (some (jsOrZero (m (minuteKey b.timestamp)) + g)))
          = jsOrZero (m (minuteKey b.timestamp)) + g from rfl, ← hk, hm k]
      rfl
    · rw [if_neg hk, hm k, if_neg (fun hc => hk hc.2.symm), add_zero]

lemma foldl_addBlockGas_invariant :
    ∀ (rest : List Block) (m : Int → Option JsNum) (done : List Block),
      (∀ b ∈ rest, (parseInt16 b.gasUsed).isSome) →
      (∀ k, jsOrZero (m k) = bucketSum done k) →
      ∀ k, jsOrZero (List.foldl addBlockGas m rest k) = bucketSum (done ++ rest) k
  | [], m, done, _, hm => by simpa using hm
  | b :: rest, m, done, hval, hm => by
    intro k
    rw [List.foldl_cons]
    have step := addBlockGas_invariant m b done (hval b (by simp)) hm
    have ih := foldl_addBlockGas_invariant rest (addBlockGas m b) (done ++ [b])
      (fun x hx => hval x (by simp [hx])) step k
    rw [ih, List.append_assoc, List.singleton_append]

/-- The `gasUsageMap` lookup (with its `|| 0` read) computes exactly the
per-minute bucket sum of the fetched blocks, provided every retained block's
`gasUsed` parses (no `NaN` poisoning). -/
lemma buildGasMap_lookup (blocks : List Block)
    (hval : ∀ b ∈ blocks, (parseInt16 b.gasUsed).isSome) (k : Int) :
    jsOrZero (buildGasMap blocks k) = bucketSum blocks k := by
  have h := foldl_addBlockGas_invariant blocks (fun _ => none) [] hval
    (fun k2 => by simp [jsOrZero, bucketSum]) k
  simpa [buildGasMap] using h

lemma gasHistoryRows_length (now : Int) (m : Int → Option JsNum) (minutes : Nat) :
    (gasHistoryRows now m minutes).length = minutes := by
  unfold gasHistoryRows
  rw [List.length_reverse, List.length_map, List.length_range]

lemma gasHistoryRows_get (now : Int) (m : Int → Option JsNum) (minutes : Nat)
    (j : Nat) (hj : j < minutes) :
    (gasHistoryRows now m minutes)[j]? =
      some (now - ((minutes - 1 - j : Nat) : Int) * 60,
        jsOrZero (m (minuteKey (now - ((minutes - 1 - j : Nat) : Int) * 60)))) := by
  unfold gasHistoryRows
  rw [List.getElem?_reverse (by rw [List.length_map, List.length_range]; omega),
    List.length_map, List.length_range, List.getElem?_map,
    List.getElem?_range (by omega)]
  rfl

/-- C6: a successful `getGasUsageHistory(minutes)` run — latest block fetched,
older block consulted, batch returned — yields exactly `minutes` rows in
oldest-first order, row `j` anchored at the minute timestamp
`latest.timestamp - (minutes-1-j)*60`, whose `gasUsed` is the sum of
`parseInt(gasUsed, 16)` over the fetched (non-null) blocks whose timestamp
falls in that minute bucket (each minute with no contributing block getting
`0`, since its bucket sum is empty); and every failure path — a thrown or
`null` latest-block fetch, a thrown older-block fetch, or a thrown batch —
returns `[]`. `hval` excludes `NaN` gas values, which would poison a bucket. -/
theorem C6_gas_usage_history (minutes : Nat)
    (olderFetch : Int → Except Unit (Option MonadDash.Block))
    (batchFetch : List Int → Except Unit (List (Option MonadDash.Block)))
    (latest : MonadDash.Block) (olderOpt : Option MonadDash.Block)
    (results : List (Option MonadDash.Block))
    (h2 : olderFetch (latest.number - 100) = .ok olderOpt)
    (h3 : batchFetch (MonadDash.requestedBlockNumbers latest olderOpt minutes) = .ok results)
    (hval : ∀ b ∈ results.filterMap id, (MonadDash.parseInt16 b.gasUsed).isSome) :
    (MonadDash.getGasUsageHistory minutes (.ok (some latest)) olderFetch batchFetch).length
        = minutes
    ∧ (∀ (j : Nat), j < minutes →
        (MonadDash.getGasUsageHistory minutes (.ok (some latest)) olderFetch batchFetch)[j]? =
          some (latest.timestamp - ((minutes - 1 - j : Nat) : Int) * 60,
            MonadDash.bucketSum (results.filterMap id)
              (MonadDash.minuteKey
                (latest.timestamp - ((minutes - 1 - j : Nat) : Int) * 60))))
    ∧ (∀ ofetch bfetch,
        MonadDash.getGasUsageHistory minutes (.error ()) ofetch bfetch = [])
    ∧ (∀ ofetch bfetch,
        MonadDash.getGasUsageHistory minutes (.ok none) ofetch bfetch = [])
    ∧ (∀ ofetch bfetch, ofetch (latest.number - 100) = .error () →
        MonadDash.getGasUsageHistory minutes (.ok (some latest)) ofetch bfetch = [])
    ∧ (∀ bfetch,
        bfetch (MonadDash.requestedBlockNumbers latest olderOpt minutes) = .error () →
        MonadDash.getGasUsageHistory minutes (.ok (some latest)) olderFetch bfetch = []) := by
  have hrun : MonadDash.getGasUsageHistory minutes (.ok (some latest)) olderFetch batchFetch =
      gasHistoryRows latest.timestamp (buildGasMap (results.filterMap id)) minutes := by
    show (match olderFetch (latest.number - 100) with
      | .error _ => []
      | .ok olderOpt2 =>
        match batchFetch (requestedBlockNumbers latest olderOpt2 minutes) with
        | .error _ => []
        | .ok results2 =>
          gasHistoryRows latest.timestamp (buildGasMap (results2.filterMap id)) minutes) = _
    rw [h2]
    show (match batchFetch (requestedBlockNumbers latest olderOpt minutes) with
      | .error _ => []
      | .ok results2 =>
        gasHistoryRows latest.timestamp (buildGasMap (results2.filterMap id)) minutes) = _
    rw [h3]
  refine ⟨?_, ?_, ?_, ?_, ?_, ?_⟩
  · rw [hrun, gasHistoryRows_length]
  · intro j hj
    rw [hrun, gasHistoryRows_get latest.timestamp _ minutes j hj,
      buildGasMap_lookup (results.filterMap id) hval]
  · intro ofetch bfetch
    rfl
  · intro ofetch bfetch
    rfl
  · intro ofetch bfetch hof
    show (match ofetch (latest.number - 100) with
      | .error _ => []
      | .ok olderOpt2 =>
        match bfetch (requestedBlockNumbers latest olderOpt2 minutes) with
        | .error _ => []
        | .ok results2 =>
          gasHistoryRows latest.timestamp (buildGasMap (results2.filterMap id)) minutes) = []
    rw [hof]
  · intro bfetch hbf
    show (match olderFetch (latest.number - 100) with
      | .error _ => []
      | .ok olderOpt2 =>
        match bfetch (requestedBlockNumbers latest olderOpt2 minutes) with
        | .error _ => []
        | .ok results2 =>
          gasHistoryRows latest.timestamp (buildGasMap (results2.filterMap id)) minutes) = []
    rw [h2]
    show (match bfetch (requestedBlockNumbers latest olderOpt minutes) with
      | .error _ => []
      | .ok results2 =>
        gasHistoryRows latest.timestamp (buildGasMap (results2.filterMap id)) minutes) = []
    rw [hbf]

/-- The concrete C6 witness scenario: latest block 200 at `t = 600`, older
block 100 at `t = 300`, batch returning three blocks. -/
def c6Results : List (Option Block) :=
  [some ⟨200, 600, "0xa", none⟩, some ⟨199, 597, "0x10", none⟩, some ⟨198, 540, "0x1", none⟩]

/-- C6 witness: the theorem applied to the concrete scenario; the oldest of the
three rows (index 0) is anchored two minutes behind the latest block's own
timestamp. -/
theorem C6_gas_usage_history_witness :
    (MonadDash.getGasUsageHistory 3
        (.ok (some ⟨200, 600, "0x0", none⟩))
        (fun _ => .ok (some ⟨100, 300, "0x0", none⟩))
        (fun _ => .ok MonadDash.c6Results)).length = 3
    ∧ (MonadDash.getGasUsageHistory 3
        (.ok (some ⟨200, 600, "0x0", none⟩))
        (fun _ => .ok (some ⟨100, 300, "0x0", none⟩))
        (fun _ => .ok MonadDash.c6Results))[0]? =
      some ((⟨200, 600, "0x0", none⟩ : MonadDash.Block).timestamp
            - ((3 - 1 - 0 : Nat) : Int) * 60,
        MonadDash.bucketSum (MonadDash.c6Results.filterMap id)
          (MonadDash.minuteKey
            ((⟨200, 600, "0x0", none⟩ : MonadDash.Block).timestamp
              - ((3 - 1 - 0 : Nat) : Int) * 60))) := by
  have h := C6_gas_usage_history 3
    (fun _ => .ok (some ⟨100, 300, "0x0", none⟩))
    (fun _ => .ok MonadDash.c6Results)
    ⟨200, 600, "0x0", none⟩ (some ⟨100, 300, "0x0", none⟩) MonadDash.c6Results
    rfl rfl (by decide)
  exact ⟨h.1, h.2.1 0 (by decide)⟩

/-! ## C10 -/

lemma digitChar_inj_lt : ∀ (d₁ : Nat), d₁ < 10 → ∀ (d₂ : Nat), d₂ < 10 →
    Nat.digitChar d₁ = Nat.digitChar d₂ → d₁ = d₂ := by decide

lemma map_digitChar_inj : ∀ (l₁ l₂ : List Nat), (∀ x ∈ l₁, x < 10) → (∀ x ∈ l₂, x < 10) →
    l₁.map Nat.digitChar = l₂.map Nat.digitChar → l₁ = l₂
  | [], [], _, _, _ => rfl
  | [], _ :: _, _, _, h => by simp at h
  | _ :: _, [], _, _, h => by simp at h
  | d₁ :: t₁, d₂ :: t₂, h₁, h₂, h => by
    rw [List.map_cons, List.map_cons] at h
    injection h with hd ht
    rw [digitChar_inj_lt d₁ (h₁ d₁ (by simp)) d₂ (h₂ d₂ (by simp)) hd,
      map_digitChar_inj t₁ t₂ (fun x hx => h₁ x (by simp [hx]))
        (fun x hx => h₂ x (by simp [hx])) ht]

lemma decimalRepr_ne_zero_str (n : Nat) (hn : n ≠ 0) : decimalRepr n ≠ "0" := by
  unfold decimalRepr
  rw [if_neg hn]
  intro h
  have hdata : (Nat.digits 10 n).reverse.map Nat.digitChar = ['0'] := congrArg String.data h
  rcases hrev : (Nat.digits 10 n).reverse with _ | ⟨d, t⟩
  · rw [hrev] at hdata
    simp at hdata
  · rw [hrev, List.map_cons] at hdata
    injection hdata with hd ht
    have ht0 : t = [] := by
      cases t with
      | nil => rfl
      | cons a b => simp at ht
    subst ht0
    have hdm : d ∈ Nat.digits 10 n := by
      rw [← List.mem_reverse, hrev]
      simp
    have hdlt : d < 10 := Nat.digits_lt_base (by norm_num) hdm
    have hd0 : d = 0 := digitChar_inj_lt d hdlt 0 (by norm_num) (by rw [hd]; rfl)
    subst hd0
    have hdig : Nat.digits 10 n = [0] := by
      have := congrArg List.reverse hrev
      simpa using this
    have hzero := Nat.ofDigits_digits 10 n
    rw [hdig] at hzero
    simp [Nat.ofDigits] at hzero
    exact hn hzero.symm

lemma decimalRepr_inj (m n : Nat) (h : decimalRepr m = decimalRepr n) : m = n := by
  by_cases hm : m = 0 <;> by_cases hn : n = 0
  · omega
  · exfalso
    refine decimalRepr_ne_zero_str n hn ?_
    rw [← h]
    unfold decimalRepr
    rw [if_pos hm]
  · exfalso
    refine decimalRepr_ne_zero_str m hm ?_
    rw [h]
    unfold decimalRepr
    rw [if_pos hn]
  · unfold decimalRepr at h
    rw [if_neg hm, if_neg hn] at h
    have hdata : (Nat.digits 10 m).reverse.map Nat.digitChar =
        (Nat.digits 10 n).reverse.map Nat.digitChar := congrArg String.data h
    have hrev : (Nat.digits 10 m).reverse = (Nat.digits 10 n).reverse :=
      map_digitChar_inj _ _
        (fun x hx => Nat.digits_lt_base (by norm_num) (List.mem_reverse.mp hx))
        (fun x hx => Nat.digits_lt_base (by norm_num) (List.mem_reverse.mp hx)) hdata
    have hdig : Nat.digits 10 m = Nat.digits 10 n := List.reverse_injective hrev
    have h1 := Nat.ofDigits_digits 10 m
    have h2 := Nat.ofDigits_digits 10 n
    rw [hdig] at h1
    rw [← h1, h2]

lemma eventIdStr_inj (m n : Nat) (h : eventIdStr m = eventIdStr n) : m = n := by
  unfold eventIdStr at h
  have hdata := congrArg String.data h
  rw [String.data_append, String.data_append] at hdata
  exact decimalRepr_inj m n (String.ext (List.append_cancel_left hdata))

/-- The event-id strings minted by a scan that starts its counter at `c` and
emits `n` events: `event-c, event-(c+1), ...`. -/
def idRange (c n : Nat) : List String :=
  (List.range n).map (fun k => eventIdStr (c + k))

lemma idRange_append (c m n : Nat) :
    idRange c (m + n) = idRange c m ++ idRange (c + m) n := by
  unfold idRange
  rw [List.range_add, List.map_append, List.map_map]
  congr 1
  refine List.map_congr_left (fun k _ => ?_)
  show eventIdStr (c + (m + k)) = eventIdStr (c + m + k)
  rw [Nat.add_assoc]

lemma map_id_append (la lb : List Event) (c : Nat)
    (ha : la.map Event.id = idRange c la.length)
    (hb : lb.map Event.id = idRange (c + la.length) lb.length) :
    (la ++ lb).map Event.id = idRange c (la ++ lb).length := by
  rw [List.map_append, List.length_append, idRange_append, ha, hb]

lemma four_chunk_ids (c : Nat) (f1 f2 f3 f4 : List Event)
    (h1 : f1.map Event.id = idRange c f1.length)
    (h2 : f2.map Event.id = idRange (c + f1.length) f2.length)
    (h3 : f3.map Event.id = idRange (c + f1.length + f2.length) f3.length)
    (h4 : f4.map Event.id = idRange (c + f1.length + f2.length + f3.length) f4.length) :
    (f1 ++ f2 ++ f3 ++ f4).map Event.id = idRange c (f1 ++ f2 ++ f3 ++ f4).length := by
  have g12 := map_id_append f1 f2 c h1 h2
  have g123 := map_id_append (f1 ++ f2) f3 c g12
    (by rw [List.length_append, ← Nat.add_assoc]; exact h3)
  exact map_id_append (f1 ++ f2 ++ f3) f4 c g123
    (by rw [List.length_append, List.length_append, ← Nat.add_assoc, ← Nat.add_assoc]
        exact h4)

lemma txEvents_ids (c : Nat) (bn bt : Int) (tx : Transaction)
    (rOf : String → Option RpcReceipt) :
    (txEvents c bn bt tx rOf).map Event.id =
      idRange c (txEvents c bn bt tx rOf).length := by
  simp only [txEvents]
  apply four_chunk_ids
  · split_ifs <;> simp [idRange, List.range_succ]
  · cases hr : rOf tx.hash <;> simp only [hr] <;> try split_ifs
    all_goals simp [idRange, List.range_succ]
  · split_ifs <;> simp [idRange, List.range_succ]
  · split_ifs <;> simp [idRange, List.range_succ]

lemma scanTxs_ids : ∀ (txs : List Transaction) (c : Nat) (bn bt : Int)
    (rOf : String → Option RpcReceipt),
    (scanTxs c bn bt rOf txs).map Event.id = idRange c (scanTxs c bn bt rOf txs).length
  | [], c, bn, bt, rOf => by simp [scanTxs, idRange]
  | tx :: rest, c, bn, bt, rOf => by
    rw [scanTxs]
    exact map_id_append _ _ c (txEvents_ids c bn bt tx rOf)
      (scanTxs_ids rest _ bn bt rOf)

lemma blockEvents_ids (c : Nat) (rOf : String → Option RpcReceipt) (b : Option Block) :
    (blockEvents c rOf b).map Event.id = idRange c (blockEvents c rOf b).length := by
  cases b with
  | none => simp [blockEvents, idRange]
  | some blk =>
    cases hp : blk.prefetchedTransactions with
    | none => simp [blockEvents, hp, idRange]
    | some txs =>
      simp only [blockEvents, hp]
      exact scanTxs_ids (txs.take 3) c blk.number blk.timestamp rOf

lemma scanBlocks_ids : ∀ (blocks : List (Option Block)) (c : Nat)
    (rOf : String → Option RpcReceipt),
    (scanBlocks c rOf blocks).map Event.id = idRange c (scanBlocks c rOf blocks).length
  | [], c, rOf => by simp [scanBlocks, idRange]
  | b :: rest, c, rOf => by
    rw [scanBlocks]
    exact map_id_append _ _ c (blockEvents_ids c rOf b) (scanBlocks_ids rest _ rOf)

lemma txEvents_length_indep (c c2 : Nat) (bn bt : Int) (tx : Transaction)
    (rOf : String → Option RpcReceipt) :
    (txEvents c bn bt tx rOf).length = (txEvents c2 bn bt tx rOf).length := by
  simp only [txEvents]
  cases hr : rOf tx.hash <;> simp only [hr] <;> try split_ifs
  all_goals simp

lemma scanTxs_length_indep : ∀ (txs : List Transaction) (c c2 : Nat) (bn bt : Int)
    (rOf : String → Option RpcReceipt),
    (scanTxs c bn bt rOf txs).length = (scanTxs c2 bn bt rOf txs).length
  | [], _, _, _, _, _ => rfl
  | tx :: rest, c, c2, bn, bt, rOf => by
    rw [scanTxs, scanTxs, List.length_append, List.length_append,
      scanTxs_length_indep rest (c + (txEvents c bn bt tx rOf).length)
        (c2 + (txEvents c2 bn bt tx rOf).length) bn bt rOf,
      txEvents_length_indep c c2 bn bt tx rOf]

lemma blockEvents_length_indep (c c2 : Nat) (rOf : String → Option RpcReceipt)
    (b : Option Block) :
    (blockEvents c rOf b).length = (blockEvents c2 rOf b).length := by
  cases b with
  | none => rfl
  | some blk =>
    cases hp : blk.prefetchedTransactions with
    | none => simp [blockEvents, hp]
    | some txs =>
      simp only [blockEvents, hp]
      exact scanTxs_length_indep (txs.take 3) c c2 blk.number blk.timestamp rOf

lemma scanBlocks_length_indep : ∀ (blocks : List (Option Block)) (c c2 : Nat)
    (rOf : String → Option RpcReceipt),
    (scanBlocks c rOf blocks).length = (scanBlocks c2 rOf blocks).length
  | [], _, _, _ => rfl
  | b :: rest, c, c2, rOf => by
    rw [scanBlocks, scanBlocks, List.length_append, List.length_append,
      scanBlocks_length_indep rest (c + (blockEvents c rOf b).length)
        (c2 + (blockEvents c2 rOf b).length) rOf,
      blockEvents_length_indep c c2 rOf b]

lemma idRange_nodup (c n : Nat) : (idRange c n).Nodup := by
  refine List.Nodup.map ?_ (List.nodup_range n)
  intro a b hab
  have := eventIdStr_inj (c + a) (c + b) hab
  omega

lemma mem_idRange {x : String} {c n : Nat} (hx : x ∈ idRange c n) :
    ∃ k, k < n ∧ x = eventIdStr (c + k) := by
  unfold idRange at hx
  obtain ⟨k, hk, rfl⟩ := List.mem_map.mp hx
  exact ⟨k, List.mem_range.mp hk, rfl⟩

lemma sortByTimeDesc_perm (l : List Event) : List.Perm (sortByTimeDesc l) l :=
  List.perm_insertionSort _ l

/-- C10: event ids are generated per invocation, not derived from chain data.
The `getRecentEvents` scan numbers its events `event-1, event-2, ...` from 1;
the `getNewEventsSince` scan numbers them from the `Date.now()` seed `t`, so
the event at scan position `k` carries id `event-(t+k)`. Consequently two
invocations over the same blocks at different wall-clock seeds (`t₁ ≠ t₂`)
assign different ids to the same underlying occurrence, and — when the seeds
are at least one scan length apart, as consecutive 30-second polls are — the
events panel's dedupe-by-id keeps every event of both fetches: no duplicate is
identified across the two invocations. -/
theorem C10_event_ids_per_invocation (blocks : List (Option MonadDash.Block))
    (rOf : String → Option MonadDash.RpcReceipt) (t₁ t₂ k : Nat)
    (hk : k < (MonadDash.scanBlocks t₁ rOf blocks).length)
    (hne : t₁ ≠ t₂)
    (hgap : t₁ + (MonadDash.scanBlocks t₁ rOf blocks).length ≤ t₂) :
    (MonadDash.scanBlocks 1 rOf blocks).map MonadDash.Event.id =
      MonadDash.idRange 1 (MonadDash.scanBlocks 1 rOf blocks).length
    ∧ (MonadDash.scanBlocks t₁ rOf blocks).map MonadDash.Event.id =
      MonadDash.idRange t₁ (MonadDash.scanBlocks t₁ rOf blocks).length
    ∧ (MonadDash.scanBlocks t₁ rOf blocks)[k]?.map MonadDash.Event.id =
        some (MonadDash.eventIdStr (t₁ + k))
    ∧ (MonadDash.scanBlocks t₂ rOf blocks)[k]?.map MonadDash.Event.id =
        some (MonadDash.eventIdStr (t₂ + k))
    ∧ MonadDash.eventIdStr (t₁ + k) ≠ MonadDash.eventIdStr (t₂ + k)
    ∧ (MonadDash.keepFirstBy MonadDash.Event.id
        (MonadDash.getNewEventsSinceCore t₁ blocks rOf ++
          MonadDash.getNewEventsSinceCore t₂ blocks rOf)).length =
      (MonadDash.getNewEventsSinceCore t₁ blocks rOf).length +
        (MonadDash.getNewEventsSinceCore t₂ blocks rOf).length := by
  have hat : ∀ (t j : Nat), j < (scanBlocks t rOf blocks).length →
      (scanBlocks t rOf blocks)[j]?.map Event.id = some (eventIdStr (t + j)) := by
    intro t j hj
    have hmap := scanBlocks_ids blocks t rOf
    have h1 : ((scanBlocks t rOf blocks).map Event.id)[j]? =
        (scanBlocks t rOf blocks)[j]?.map Event.id := List.getElem?_map ..
    rw [← h1, hmap]
    unfold idRange
    rw [List.getElem?_map, List.getElem?_range hj]
    rfl
  have hlen12 : (scanBlocks t₂ rOf blocks).length = (scanBlocks t₁ rOf blocks).length :=
    scanBlocks_length_indep blocks t₂ t₁ rOf
  have hmemids : ∀ (t : Nat) (x : String),
      x ∈ (getNewEventsSinceCore t blocks rOf).map Event.id →
      ∃ j, j < (scanBlocks t rOf blocks).length ∧ x = eventIdStr (t + j) := by
    intro t x hx
    have hperm : List.Perm ((getNewEventsSinceCore t blocks rOf).map Event.id)
        ((scanBlocks t rOf blocks).map Event.id) :=
      (sortByTimeDesc_perm (scanBlocks t rOf blocks)).map Event.id
    have hx2 : x ∈ (scanBlocks t rOf blocks).map Event.id := hperm.mem_iff.mp hx
    rw [scanBlocks_ids blocks t rOf] at hx2
    exact mem_idRange hx2
  have hnodup : ∀ (t : Nat), ((getNewEventsSinceCore t blocks rOf).map Event.id).Nodup := by
    intro t
    have hperm : List.Perm ((getNewEventsSinceCore t blocks rOf).map Event.id)
        ((scanBlocks t rOf blocks).map Event.id) :=
      (sortByTimeDesc_perm (scanBlocks t rOf blocks)).map Event.id
    rw [hperm.nodup_iff, scanBlocks_ids blocks t rOf]
    exact idRange_nodup _ _
  refine ⟨scanBlocks_ids blocks 1 rOf, scanBlocks_ids blocks t₁ rOf,
    hat t₁ k hk, hat t₂ k (by omega), ?_, ?_⟩
  · intro hcon
    exact hne (by have := eventIdStr_inj (t₁ + k) (t₂ + k) hcon; omega)
  · have hnd : ((getNewEventsSinceCore t₁ blocks rOf ++
        getNewEventsSinceCore t₂ blocks rOf).map Event.id).Nodup := by
      rw [List.map_append, List.nodup_append]
      refine ⟨hnodup t₁, hnodup t₂, ?_⟩
      intro a ha hb
      obtain ⟨j₁, hj₁, rfl⟩ := hmemids t₁ a ha
      obtain ⟨j₂, hj₂, heq⟩ := hmemids t₂ _ hb
      have := eventIdStr_inj _ _ heq
      omega
    rw [keepFirstBy, keepFirstByAux_eq_self Event.id _ []
      (fun e _ => List.not_mem_nil e.id) hnd]
    exact List.length_append ..

/-- The single fetched block of the C10 witness: one contract creation, one
large transfer that is also high-gas — three events per scan. -/
def c10Blocks : List (Option Block) :=
  [some ⟨5, 1000, "0x0", some
    [⟨"h1", some "f", none, 0, 0, none⟩,
     ⟨"h2", some "f", some "dst", 2000000000000000000, 600000, none⟩]⟩]

/-- C10 witness: the theorem at seeds 100 and 200 over the concrete block,
scan position 0. -/
theorem C10_event_ids_per_invocation_witness :
    (MonadDash.scanBlocks 1 (fun _ => none) MonadDash.c10Blocks).map MonadDash.Event.id =
      MonadDash.idRange 1
        (MonadDash.scanBlocks 1 (fun _ => none) MonadDash.c10Blocks).length
    ∧ (MonadDash.scanBlocks 100 (fun _ => none) MonadDash.c10Blocks).map MonadDash.Event.id =
      MonadDash.idRange 100
        (MonadDash.scanBlocks 100 (fun _ => none) MonadDash.c10Blocks).length
    ∧ (MonadDash.scanBlocks 100 (fun _ => none) MonadDash.c10Blocks)[0]?.map
        MonadDash.Event.id = some (MonadDash.eventIdStr (100 + 0))
    ∧ (MonadDash.scanBlocks 200 (fun _ => none) MonadDash.c10Blocks)[0]?.map
        MonadDash.Event.id = some (MonadDash.eventIdStr (200 + 0))
    ∧ MonadDash.eventIdStr (100 + 0) ≠ MonadDash.eventIdStr (200 + 0)
    ∧ (MonadDash.keepFirstBy MonadDash.Event.id
        (MonadDash.getNewEventsSinceCore 100 MonadDash.c10Blocks (fun _ => none) ++
          MonadDash.getNewEventsSinceCore 200 MonadDash.c10Blocks (fun _ => none))).length =
      (MonadDash.getNewEventsSinceCore 100 MonadDash.c10Blocks (fun _ => none)).length +
        (MonadDash.getNewEventsSinceCore 200 MonadDash.c10Blocks (fun _ => none)).length :=
  C10_event_ids_per_invocation MonadDash.c10Blocks (fun _ => none) 100 200 0
    (by decide) (by decide) (by decide)

end MonadDash
